import Mathlib

/-!
Verification of the DCA grid trading engine (backend/app) against its
natural-language specification.

The embedding is shallow: Python functions become Lean functions over exact
rationals (ℚ), database state becomes explicit record passing, and fallible
code returns `Except`/`Option`.  Python `float` arithmetic is idealised as
exact rational arithmetic, matching the spec's own real-number reading;
Python's `round` (banker's rounding) and `Decimal.quantize(ROUND_DOWN)` /
`math.floor` are modelled exactly on ℚ.
-/

namespace TradingBot

/-! ## Numeric helpers

`roundHalfEven` models Python's `round` to the nearest integer
(ties to even); `pyRound q n` models `round(q, n)`.
`truncToPrecision` models `GridCalculator._truncate_to_precision`
(`Decimal.quantize(..., ROUND_DOWN)`, i.e. truncation toward zero).
`floorToPrecision` models `math.floor(x * 10**p) / 10**p`.
-/

def roundHalfEven (q : ℚ) : ℤ :=
  if q - ⌊q⌋ < 1/2 then ⌊q⌋
  else if 1/2 < q - ⌊q⌋ then ⌊q⌋ + 1
  else if ⌊q⌋ % 2 = 0 then ⌊q⌋ else ⌊q⌋ + 1

def pyRound (q : ℚ) (n : ℕ) : ℚ :=
  (roundHalfEven (q * 10 ^ n) : ℚ) / 10 ^ n

def intTruncTowardZero (q : ℚ) : ℤ :=
  if q < 0 then ⌈q⌉ else ⌊q⌋

def truncToPrecision (value : ℚ) (precision : ℕ) : ℚ :=
  (intTruncTowardZero (value * 10 ^ precision) : ℚ) / 10 ^ precision

def floorToPrecision (value : ℚ) (precision : ℕ) : ℚ :=
  (⌊value * 10 ^ precision⌋ : ℚ) / 10 ^ precision

/-! ## GridConfig and GridCalculator (`app/shared/utils.py`) -/

/-- Mirror of the `GridConfig` dataclass.  `grid_levels` is a Python `int`,
hence ℤ; percentages and monetary amounts are ℚ. -/
structure GridConfig where
  current_price : ℚ
  total_budget : ℚ
  grid_levels : ℤ
  grid_length_pct : ℚ
  first_step_pct : ℚ
  volume_scale_pct : ℚ
  amount_precision : ℕ := 4
  price_precision : ℕ := 2
deriving DecidableEq, Repr

/-- Mirror of `GridConfig.__post_init__`: the construction either raises
`ValueError` (here: `Except.error`) or returns the frozen dataclass. -/
def mkGridConfig (current_price total_budget : ℚ) (grid_levels : ℤ)
    (grid_length_pct first_step_pct volume_scale_pct : ℚ)
    (amount_precision price_precision : ℕ) : Except String GridConfig :=
  if current_price ≤ 0 then .error "current_price must be positive"
  else if total_budget ≤ 0 then .error "total_budget must be positive"
  else if grid_levels < 1 then .error "grid_levels must be at least 1"
  else if ¬ (0 ≤ grid_length_pct ∧ grid_length_pct ≤ 100) then
    .error "grid_length_pct must be between 0 and 100"
  else if ¬ (0 ≤ first_step_pct ∧ first_step_pct ≤ 100) then
    .error "first_step_pct must be between 0 and 100"
  else if volume_scale_pct < 0 then .error "volume_scale_pct cannot be negative"
  else .ok ⟨current_price, total_budget, grid_levels, grid_length_pct,
    first_step_pct, volume_scale_pct, amount_precision, price_precision⟩

/-- The documented domain of `GridConfig` (the conditions `__post_init__`
accepts). -/
def GridConfig.validDomain (current_price total_budget : ℚ) (grid_levels : ℤ)
    (grid_length_pct first_step_pct volume_scale_pct : ℚ) : Prop :=
  0 < current_price ∧ 0 < total_budget ∧ 1 ≤ grid_levels ∧
  (0 ≤ grid_length_pct ∧ grid_length_pct ≤ 100) ∧
  (0 ≤ first_step_pct ∧ first_step_pct ≤ 100) ∧ 0 ≤ volume_scale_pct

instance (cp tb : ℚ) (gl : ℤ) (glp fsp vsp : ℚ) :
    Decidable (GridConfig.validDomain cp tb gl glp fsp vsp) := by
  unfold GridConfig.validDomain; infer_instance

/-- One rung emitted by the calculator (the `GridOrder` TypedDict). -/
structure GridOrder where
  index : ℕ
  price : ℚ
  amount_usdt : ℚ
  amount_base : ℚ
deriving DecidableEq, Repr

namespace GridCalculator

def firstOrderPrice (c : GridConfig) : ℚ :=
  c.current_price * (1 - c.first_step_pct / 100)

def lastOrderPrice (c : GridConfig) (first_price : ℚ) : ℚ :=
  first_price * (1 - c.grid_length_pct / 100)

def priceStep (c : GridConfig) (first_price last_price : ℚ) : ℚ :=
  if c.grid_levels ≤ 1 then 0
  else (first_price - last_price) / ((c.grid_levels : ℚ) - 1)

def volumeMultiplier (c : GridConfig) (order_index : ℕ) : ℚ :=
  (1 + c.volume_scale_pct / 100) ^ order_index

def volumeWeights (c : GridConfig) : ℚ :=
  ((List.range c.grid_levels.toNat).map fun i => (volumeMultiplier c 1) ^ i).sum

def createOrder (c : GridConfig) (index : ℕ) (price volume_usdt : ℚ) : GridOrder :=
  { index := index
    price := pyRound price c.price_precision
    amount_usdt := pyRound volume_usdt 2
    amount_base := truncToPrecision (volume_usdt / price) c.amount_precision }

/-- Mirror of `GridCalculator.calculate`. -/
def calculate (c : GridConfig) : List GridOrder :=
  let first_price := firstOrderPrice c
  let last_price := lastOrderPrice c first_price
  let price_step := priceStep c first_price last_price
  let first_order_volume := c.total_budget / volumeWeights c
  (List.range c.grid_levels.toNat).map fun i =>
    createOrder c i (first_price - i * price_step)
      (first_order_volume * volumeMultiplier c i)

/-- Total quote volume over the emitted rungs. -/
def sumAmountUsdt (orders : List GridOrder) : ℚ :=
  (orders.map GridOrder.amount_usdt).sum

end GridCalculator

/-! ## Rounding error bounds -/

theorem abs_roundHalfEven_sub (q : ℚ) : |(roundHalfEven q : ℚ) - q| ≤ 1/2 := by
  have h0 : (⌊q⌋ : ℚ) ≤ q := Int.floor_le q
  have h1 : q < ⌊q⌋ + 1 := Int.lt_floor_add_one q
  unfold roundHalfEven
  split_ifs with hf hg he
  · rw [abs_sub_comm, abs_of_nonneg (by linarith)]; linarith
  · rw [abs_of_nonneg (by push_cast; linarith)]; push_cast; linarith
  · rw [abs_sub_comm, abs_of_nonneg (by linarith)]; linarith
  · rw [abs_of_nonneg (by push_cast; linarith)]; push_cast; linarith

theorem abs_pyRound_sub (q : ℚ) (n : ℕ) : |pyRound q n - q| ≤ 1 / (2 * 10 ^ n) := by
  have hpos : (0:ℚ) < 10 ^ n := by positivity
  have h := abs_roundHalfEven_sub (q * 10 ^ n)
  have heq : pyRound q n - q = ((roundHalfEven (q * 10 ^ n) : ℚ) - q * 10 ^ n) / 10 ^ n := by
    unfold pyRound; field_simp; ring
  rw [heq, abs_div, abs_of_pos hpos, div_le_div_iff₀ hpos (by positivity)]
  nlinarith [h, hpos]

theorem abs_sum_pyRound_sub (l : List ℚ) :
    |((l.map fun v => pyRound v 2).sum - l.sum)| ≤ (l.length : ℚ) * (1/200) := by
  induction l with
  | nil => simp
  | cons a t ih =>
    have ha := abs_pyRound_sub a 2
    have h2 : |pyRound a 2 - a| ≤ 1/200 := by
      calc |pyRound a 2 - a| ≤ 1 / (2 * 10 ^ 2) := ha
        _ = 1/200 := by norm_num
    calc |((((a :: t).map fun v => pyRound v 2)).sum - (a :: t).sum)|
        = |(pyRound a 2 - a) + ((t.map fun v => pyRound v 2).sum - t.sum)| := by
          simp only [List.map_cons, List.sum_cons]; ring_nf
      _ ≤ |pyRound a 2 - a| + |((t.map fun v => pyRound v 2).sum - t.sum)| := abs_add _ _
      _ ≤ 1/200 + (t.length : ℚ) * (1/200) := add_le_add h2 ih
      _ = ((a :: t).length : ℚ) * (1/200) := by push_cast [List.length_cons]; ring

namespace GridCalculator

theorem volumeWeights_pos (c : GridConfig) (hN : 1 ≤ c.grid_levels)
    (hV : 0 ≤ c.volume_scale_pct) : 0 < volumeWeights c := by
  unfold volumeWeights
  apply List.sum_pos
  · intro x hx
    simp only [List.mem_map] at hx
    obtain ⟨i, _, rfl⟩ := hx
    have hm : (0:ℚ) < volumeMultiplier c 1 := by
      unfold volumeMultiplier
      have : (0:ℚ) < 1 + c.volume_scale_pct / 100 := by linarith
      simpa using this
    positivity
  · have : c.grid_levels.toNat ≠ 0 := by omega
    simp [List.range_eq_nil, this]

theorem sum_volumes (c : GridConfig) (hN : 1 ≤ c.grid_levels)
    (hV : 0 ≤ c.volume_scale_pct) :
    ((List.range c.grid_levels.toNat).map fun i =>
      c.total_budget / volumeWeights c * volumeMultiplier c i).sum = c.total_budget := by
  have hW : volumeWeights c ≠ 0 := ne_of_gt (volumeWeights_pos c hN hV)
  have hmul : ∀ i : ℕ, volumeMultiplier c i = (volumeMultiplier c 1) ^ i := by
    intro i; unfold volumeMultiplier; rw [pow_one]
  calc ((List.range c.grid_levels.toNat).map fun i =>
          c.total_budget / volumeWeights c * volumeMultiplier c i).sum
      = c.total_budget / volumeWeights c *
        ((List.range c.grid_levels.toNat).map fun i => (volumeMultiplier c 1) ^ i).sum := by
        rw [← List.sum_map_mul_left]
        congr 1
        exact List.map_congr_left fun i _ => by rw [hmul]
    _ = c.total_budget / volumeWeights c * volumeWeights c := by rw [volumeWeights]
    _ = c.total_budget := div_mul_cancel₀ _ hW

end GridCalculator

/-- C2 (counterexample): at `current_price=100, total_budget=0.078, N=2, L=10,
F=0, V=0` (a valid `GridInput`), each rung's exact quote share `0.039` is
rounded half-even to `0.04`, so `Σ amount_quote = 0.08 > 0.078`: the claimed
bound `Σ amount_quote ≤ total_budget` fails. -/
theorem grid_quote_sum_counterexample :
    GridConfig.validDomain 100 (39/500) 2 10 0 0 ∧
    ¬ (GridCalculator.sumAmountUsdt
        (GridCalculator.calculate ⟨100, 39/500, 2, 10, 0, 0, 4, 2⟩) ≤ 39/500 ∧
       (39/500 : ℚ) * (1 - 1 / 10 ^ 2) ≤ GridCalculator.sumAmountUsdt
        (GridCalculator.calculate ⟨100, 39/500, 2, 10, 0, 0, 4, 2⟩)) := by
  constructor
  · unfold GridConfig.validDomain; norm_num
  · intro hcontra
    have h := hcontra.1
    revert h
    simp only [GridCalculator.sumAmountUsdt, GridCalculator.calculate,
      GridCalculator.createOrder, GridCalculator.firstOrderPrice,
      GridCalculator.lastOrderPrice, GridCalculator.priceStep,
      GridCalculator.volumeMultiplier, GridCalculator.volumeWeights,
      show ((2:ℤ).toNat = 2) from rfl, List.range_succ, List.range_zero,
      List.map_nil, List.map_cons, List.map_append, List.sum_cons, List.sum_nil,
      List.sum_append, List.nil_append, List.cons_append]
    norm_num [pyRound, roundHalfEven]

/-- C2 (amended): for every valid `GridInput` with `N ≥ 1`, the emitted quote
volumes are the exact shares `(total_budget / W) · m^i` rounded half-even to 2
decimal places, so `Σ amount_quote` differs from `total_budget` by at most
`N · 0.005` (it can land on either side of the budget). -/
theorem grid_quote_sum_within_bound (c : GridConfig)
    (h : GridConfig.validDomain c.current_price c.total_budget c.grid_levels
      c.grid_length_pct c.first_step_pct c.volume_scale_pct) :
    |GridCalculator.sumAmountUsdt (GridCalculator.calculate c) - c.total_budget| ≤
      (c.grid_levels : ℚ) * (1/200) := by
  obtain ⟨-, -, hN, -, -, hV⟩ := h
  set vol : ℕ → ℚ := fun i =>
    c.total_budget / GridCalculator.volumeWeights c * GridCalculator.volumeMultiplier c i with hvol
  have hsum : GridCalculator.sumAmountUsdt (GridCalculator.calculate c) =
      (((List.range c.grid_levels.toNat).map vol).map fun v => pyRound v 2).sum := by
    simp only [GridCalculator.sumAmountUsdt, GridCalculator.calculate,
      GridCalculator.createOrder, List.map_map]
    rfl
  have hvols : ((List.range c.grid_levels.toNat).map vol).sum = c.total_budget :=
    GridCalculator.sum_volumes c hN hV
  have hlen : (((List.range c.grid_levels.toNat).map vol).length : ℚ) = (c.grid_levels : ℚ) := by
    simp only [List.length_map, List.length_range]
    have h1 : ((c.grid_levels.toNat : ℤ) : ℚ) = (c.grid_levels : ℚ) := by
      rw [Int.toNat_of_nonneg (by omega : (0:ℤ) ≤ c.grid_levels)]
    exact_mod_cast h1
  rw [hsum, ← hvols]
  have := abs_sum_pyRound_sub ((List.range c.grid_levels.toNat).map vol)
  rw [hlen] at this
  exact this

/-- C2 witness: the amended bound applied at the counterexample input:
`|0.08 − 0.078| ≤ 2 · 0.005`. -/
theorem grid_quote_sum_within_bound_witness :
    |GridCalculator.sumAmountUsdt
      (GridCalculator.calculate ⟨100, 39/500, 2, 10, 0, 0, 4, 2⟩) - 39/500| ≤
      ((2:ℤ) : ℚ) * (1/200) :=
  grid_quote_sum_within_bound ⟨100, 39/500, 2, 10, 0, 0, 4, 2⟩
    (by unfold GridConfig.validDomain; norm_num)

/-- C8: `GridConfig` construction succeeds exactly on the documented domain
(`current_price > 0`, `total_budget > 0`, `grid_levels ≥ 1`,
`grid_length_pct ∈ [0,100]`, `first_step_pct ∈ [0,100]`,
`volume_scale_pct ≥ 0`); outside it `__post_init__` raises `ValueError`. -/
theorem gridConfig_validation_exact (cp tb : ℚ) (gl : ℤ) (glp fsp vsp : ℚ)
    (ap pp : ℕ) :
    (∃ c, mkGridConfig cp tb gl glp fsp vsp ap pp = .ok c) ↔
    GridConfig.validDomain cp tb gl glp fsp vsp := by
  constructor
  · rintro ⟨c, hc⟩
    unfold mkGridConfig at hc
    split_ifs at hc with h1 h2 h3 h4 h5 h6
    exact ⟨by linarith, by linarith, by omega, h4, h5, by linarith⟩
  · rintro ⟨hcp, htb, hgl, hglp, hfsp, hvsp⟩
    refine ⟨⟨cp, tb, gl, glp, fsp, vsp, ap, pp⟩, ?_⟩
    unfold mkGridConfig
    rw [if_neg (by linarith), if_neg (by linarith), if_neg (by omega),
      if_neg (not_not_intro hglp), if_neg (not_not_intro hfsp),
      if_neg (by linarith)]

/-! ## Persistent data model
(`app/infrastructure/persistence/sqlalchemy/models`)

Exchange order ids (strings in the source) are modelled as ℕ; timestamps as ℚ.
Row ids double as a creation counter (`created_at` ordering).  `BotConfig`
rows are read-only for the code under verification, so they are passed as a
lookup function rather than stored in `Db`.
-/

inductive OrderStatus
  | pending | active | filled | canceled | partiallyFilled
deriving DecidableEq, Repr

inductive OrderType
  | buySafety | sellTp
deriving DecidableEq, Repr

inductive CycleStatus
  | opened | closed
deriving DecidableEq, Repr

structure DbOrder where
  oid : ℕ
  cycle_id : ℕ
  binance_order_id : Option ℕ
  order_type : OrderType
  order_index : ℤ
  price : ℚ
  amount : ℚ
  status : OrderStatus
  created_at : ℕ
deriving DecidableEq, Repr

structure DbCycle where
  cid : ℕ
  config_id : ℕ
  status : CycleStatus
  total_base_qty : ℚ
  total_quote_spent : ℚ
  avg_price : ℚ
  initial_first_order_price : Option ℚ
  current_tp_order_id : Option ℕ
  current_tp_price : Option ℚ
  accumulated_dust : ℚ
  profit_usdt : Option ℚ
  closed_at : Option ℚ
  trailing_active : Bool
  max_price_tracked : Option ℚ
  trailing_activation_price : Option ℚ
  trailing_activation_time : Option ℚ
  emergency_exit : Bool
  emergency_exit_reason : Option String
  emergency_exit_time : Option ℚ
deriving DecidableEq, Repr

structure BotConfig where
  id : ℕ
  total_budget : ℚ
  safety_orders_count : ℤ
  grid_length_pct : ℚ
  first_order_offset_pct : ℚ
  volume_scale_pct : ℚ
  grid_shift_threshold_pct : ℚ
  take_profit_pct : ℚ
  trailing_enabled : Bool
  trailing_callback_pct : ℚ
  trailing_min_profit_pct : ℚ
deriving DecidableEq, Repr

structure Db where
  orders : List DbOrder
  cycles : List DbCycle
  next_row_id : ℕ
  next_cycle_id : ℕ
deriving DecidableEq, Repr

namespace Db

def findOrderByBinanceId (db : Db) (bid : ℕ) : Option DbOrder :=
  db.orders.find? fun o => o.binance_order_id == some bid

def getCycle (db : Db) (cid : ℕ) : Option DbCycle :=
  db.cycles.find? fun c => c.cid == cid

def mapOrderByRow (db : Db) (oid : ℕ) (f : DbOrder → DbOrder) : Db :=
  { db with orders := db.orders.map fun o => if o.oid == oid then f o else o }

def mapOrdersByBinanceId (db : Db) (bid : ℕ) (f : DbOrder → DbOrder) : Db :=
  { db with orders := db.orders.map fun o =>
      if o.binance_order_id == some bid then f o else o }

def mapCycle (db : Db) (cid : ℕ) (f : DbCycle → DbCycle) : Db :=
  { db with cycles := db.cycles.map fun c => if c.cid == cid then f c else c }

def addOrder (db : Db) (mk : ℕ → DbOrder) : Db :=
  { db with
    orders := db.orders ++ [mk db.next_row_id],
    next_row_id := db.next_row_id + 1 }

/-- Wellformedness of a database snapshot: row ids are primary keys (pairwise
distinct) and the fresh-id counter is above every existing row id. -/
def WF (db : Db) : Prop :=
  (db.orders.map DbOrder.oid).Nodup ∧ ∀ o ∈ db.orders, o.oid < db.next_row_id

instance (db : Db) : Decidable (WF db) := by unfold WF; infer_instance

end Db

/-! ## Environment

One fill-handler invocation interacts with the exchange and clock.  Those
responses are bundled here: `none` on a create-order field means the exchange
call raised (`ccxt.NetworkError` etc.); boolean fields tell whether a
cancel RPC succeeded.  Rounding helpers delegate to exchange metadata
(`amount_to_precision` / `price_to_precision`), so they are opaque functions.
-/

inductive FeeCurrency
  | base | usdt | other
deriving DecidableEq, Repr

/-- The `fee` field of a ccxt order dict: absent/empty, a dict with cost and
currency, or a bare number. -/
inductive FeeInfo
  | empty
  | dict (cost : ℚ) (currency : FeeCurrency)
  | scalar (q : ℚ)
deriving DecidableEq, Repr

/-- A fill event as assembled by
`BinanceWebsocketManager._process_order_as_trade`. -/
structure FillEvent where
  id : ℕ
  amount : ℚ
  price : ℚ
  cost : Option ℚ
  fee : FeeInfo
deriving DecidableEq, Repr

structure Env where
  taker_fee : Option ℚ
  cancel_old_tp_ok : Bool
  free_base : ℚ
  amount_precision : ℕ
  price_precision : ℕ
  round_price : ℚ → ℚ
  round_amount : ℚ → ℚ
  min_notional : ℚ
  tp_create_id : Option ℕ
  next_create_id : Option ℕ
  cancel_active_ok : ℕ → Bool
  now : ℚ
  free_usdt : ℚ
  current_price : ℚ
  first_create_id : Option ℕ

namespace TradingUtils

/-- Mirror of `TradingUtils.check_min_notional`. -/
def check_min_notional (env : Env) (amount price : ℚ) : Bool :=
  if 0 < env.min_notional then decide (env.min_notional ≤ amount * price) else true

end TradingUtils

/-! ## BotManager.start_first_cycle (`app/domain/bot_manager.py`) -/

inductive StartError
  | insufficientBalance | invalidGridConfig | belowMinNotional | orderCreateFailed
deriving DecidableEq, Repr

namespace BotManager

/-- `MIN_TRADING_AMOUNT` -/
def MIN_TRADING_AMOUNT : ℚ := 10

/-- `BALANCE_RESERVE_PCT` -/
def BALANCE_RESERVE_PCT : ℚ := 99/100

/-- The budget cap applied by `start_first_cycle`: the 0.99 reserve is used
only when the configured budget exceeds the free balance. -/
def effective_budget (config : BotConfig) (free_usdt : ℚ) : ℚ :=
  if config.total_budget > free_usdt then free_usdt * BALANCE_RESERVE_PCT
  else config.total_budget

/-- Mirror of `BotManager.start_first_cycle`.  Any raised exception rolls the
transaction back, so errors carry no database state. -/
def start_first_cycle (env : Env) (config : BotConfig) (db : Db) :
    Except StartError Db :=
  if env.free_usdt < MIN_TRADING_AMOUNT then .error .insufficientBalance
  else
    match mkGridConfig env.current_price (effective_budget config env.free_usdt)
        config.safety_orders_count
        config.grid_length_pct config.first_order_offset_pct config.volume_scale_pct
        env.amount_precision env.price_precision with
    | .error _ => .error .invalidGridConfig
    | .ok grid_config =>
      match GridCalculator.calculate grid_config with
      | [] => .error .invalidGridConfig
      | first_item :: rest =>
        let safe_amount := env.round_amount first_item.amount_base
        let safe_price := env.round_price first_item.price
        if ¬ TradingUtils.check_min_notional env safe_amount safe_price then
          .error .belowMinNotional
        else
          match env.first_create_id with
          | none => .error .orderCreateFailed
          | some first_binance_id =>
            let cid := db.next_cycle_id
            let new_cycle : DbCycle :=
              { cid := cid, config_id := config.id, status := .opened,
                total_base_qty := 0, total_quote_spent := 0, avg_price := 0,
                initial_first_order_price := some first_item.price,
                current_tp_order_id := none, current_tp_price := none,
                accumulated_dust := 0, profit_usdt := none, closed_at := none,
                trailing_active := false, max_price_tracked := none,
                trailing_activation_price := none, trailing_activation_time := none,
                emergency_exit := false, emergency_exit_reason := none,
                emergency_exit_time := none }
            let db1 : Db :=
              { db with
                cycles := db.cycles ++ [new_cycle],
                next_cycle_id := cid + 1 }
            let db2 := (first_item :: rest).foldl (fun d item =>
              d.addOrder fun rid =>
                { oid := rid, cycle_id := cid,
                  binance_order_id :=
                    if item.index == 0 then some first_binance_id else none,
                  order_type := .buySafety, order_index := (item.index : ℤ),
                  price := item.price, amount := item.amount_base,
                  status := if item.index == 0 then OrderStatus.active else .pending,
                  created_at := rid }) db1
            .ok db2

end BotManager

/-! ## OrderHandler (`app/domain/order_handler.py`) -/

namespace OrderHandler

/-- Fee quantity (in base units) charged on a buy fill, mirroring the fee
block of `_handle_buy_fill` (lines 81–113). -/
def buy_fill_fee_qty (env : Env) (binance_order : FillEvent) (order_price : ℚ) : ℚ :=
  match binance_order.fee with
  | .dict fee_cost fee_currency =>
    match fee_currency with
    | .base => fee_cost
    | .usdt => if 0 < order_price then fee_cost / order_price else 0
    | .other => binance_order.amount * (1/1000)
  | .scalar q => q
  | .empty =>
    match env.taker_fee with
    | some taker => binance_order.amount * taker
    | none => binance_order.amount * (1/1000)

/-- Latest row by `created_at` (the `order_by(created_at.desc()).limit(1)`
query). -/
def latestByCreatedAt (l : List DbOrder) : Option DbOrder :=
  l.foldl (fun acc o =>
    match acc with
    | none => some o
    | some a => if a.created_at < o.created_at then some o else some a) none

/-- Mirror of `OrderHandler._handle_buy_fill`.  `Except.error` marks an
uncaught exception (the transaction is rolled back by the caller); every
caught exception path returns the partially-updated state, which
`handle_filled_order` then commits. -/
def handle_buy_fill (env : Env) (config : BotConfig) (db : Db) (db_order : DbOrder)
    (cycle : DbCycle) (binance_order : FillEvent) : Except Unit Db :=
  let db1 := db.mapOrderByRow db_order.oid fun o => { o with status := .filled }
  let filled_qty := binance_order.amount
  let fee_qty := buy_fill_fee_qty env binance_order db_order.price
  let net_qty := filled_qty - fee_qty
  let new_base_qty := cycle.total_base_qty + net_qty
  let order_cost := binance_order.cost.getD (db_order.price * filled_qty)
  let new_quote_spent := cycle.total_quote_spent + order_cost
  let avg_price := if 0 < new_base_qty then new_quote_spent / new_base_qty else 0
  let db2 := db1.mapCycle cycle.cid fun c =>
    { c with
      total_base_qty := new_base_qty, total_quote_spent := new_quote_spent,
      avg_price := avg_price }
  let db3 :=
    match cycle.current_tp_order_id with
    | some old_tp_id =>
      if env.cancel_old_tp_ok then
        db2.mapOrdersByBinanceId old_tp_id fun o => { o with status := .canceled }
      else db2
    | none => db2
  let available_base := env.free_base
  let expected_amount := new_base_qty
  if available_base ≤ 0 then .ok db3
  else if 0 < expected_amount ∧
      5 < |available_base - expected_amount| / expected_amount * 100 then .ok db3
  else
    let amount_to_sell :=
      if 0 < expected_amount then
        if |available_base - expected_amount| / expected_amount < 1/1000 then
          available_base
        else if available_base < expected_amount then available_base
        else expected_amount
      else available_base
    if amount_to_sell ≤ 0 then .ok db3
    else
      let total_with_dust := amount_to_sell + cycle.accumulated_dust
      let final_amount := floorToPrecision total_with_dust env.amount_precision
      let new_dust := total_with_dust - final_amount
      let db4 := db3.mapCycle cycle.cid fun c => { c with accumulated_dust := new_dust }
      if final_amount ≤ 0 then .ok db4
      else
        let step_size : ℚ := 1 / 10 ^ env.amount_precision
        let safe_price_for_calc := env.round_price avg_price
        let max_precision_loss_usd := step_size * safe_price_for_calc
        let total_fees_usd := new_quote_spent * (2/1000)
        let total_overhead_usd := max_precision_loss_usd + total_fees_usd
        let min_tp_pct :=
          if 0 < new_quote_spent then total_overhead_usd / new_quote_spent * 100
          else 1/2
        let safe_tp_pct := min_tp_pct * (3/2)
        let effective_tp_pct := max config.take_profit_pct safe_tp_pct
        let tp_price_adaptive := avg_price * (1 + effective_tp_pct / 100)
        let safe_price := env.round_price tp_price_adaptive
        if ¬ TradingUtils.check_min_notional env final_amount safe_price then .ok db4
        else
          match env.tp_create_id with
          | none => .ok db4
          | some tp_binance_id =>
            let db5 := db4.mapCycle cycle.cid fun c =>
              { c with current_tp_order_id := some tp_binance_id }
            let db6 := db5.addOrder fun rid =>
              { oid := rid, cycle_id := cycle.cid,
                binance_order_id := some tp_binance_id, order_type := .sellTp,
                order_index := -1, price := safe_price, amount := final_amount,
                status := .active, created_at := rid }
            let next_index := db_order.order_index + 1
            match latestByCreatedAt (db6.orders.filter fun o =>
                o.cycle_id == cycle.cid && o.order_index == next_index &&
                o.order_type == OrderType.buySafety) with
            | none => .ok db6
            | some next_order =>
              let next_safe_amount := env.round_amount next_order.amount
              let next_safe_price := env.round_price next_order.price
              if ¬ TradingUtils.check_min_notional env next_safe_amount next_safe_price then
                .ok db6
              else
                match env.next_create_id with
                | none => .error ()
                | some next_binance_id =>
                  .ok (db6.mapOrderByRow next_order.oid fun o =>
                    { o with
                      binance_order_id := some next_binance_id,
                      status := .active })

/-- The tail of `_handle_buy_fill` from the balance check on (dust
accounting, adaptive TP placement, next-rung activation), starting from the
state `db3` that already carries the fill-status, cycle-total and
old-TP-cancel updates.  `handle_buy_fill` is definitionally this tail applied
to its first three updates. -/
def buy_fill_rest (env : Env) (config : BotConfig) (db_order : DbOrder)
    (cycle : DbCycle) (binance_order : FillEvent) (db3 : Db) : Except Unit Db :=
  let filled_qty := binance_order.amount
  let fee_qty := buy_fill_fee_qty env binance_order db_order.price
  let net_qty := filled_qty - fee_qty
  let new_base_qty := cycle.total_base_qty + net_qty
  let order_cost := binance_order.cost.getD (db_order.price * filled_qty)
  let new_quote_spent := cycle.total_quote_spent + order_cost
  let avg_price := if 0 < new_base_qty then new_quote_spent / new_base_qty else 0
  let available_base := env.free_base
  let expected_amount := new_base_qty
  if available_base ≤ 0 then .ok db3
  else if 0 < expected_amount ∧
      5 < |available_base - expected_amount| / expected_amount * 100 then .ok db3
  else
    let amount_to_sell :=
      if 0 < expected_amount then
        if |available_base - expected_amount| / expected_amount < 1/1000 then
          available_base
        else if available_base < expected_amount then available_base
        else expected_amount
      else available_base
    if amount_to_sell ≤ 0 then .ok db3
    else
      let total_with_dust := amount_to_sell + cycle.accumulated_dust
      let final_amount := floorToPrecision total_with_dust env.amount_precision
      let new_dust := total_with_dust - final_amount
      let db4 := db3.mapCycle cycle.cid fun c => { c with accumulated_dust := new_dust }
      if final_amount ≤ 0 then .ok db4
      else
        let step_size : ℚ := 1 / 10 ^ env.amount_precision
        let safe_price_for_calc := env.round_price avg_price
        let max_precision_loss_usd := step_size * safe_price_for_calc
        let total_fees_usd := new_quote_spent * (2/1000)
        let total_overhead_usd := max_precision_loss_usd + total_fees_usd
        let min_tp_pct :=
          if 0 < new_quote_spent then total_overhead_usd / new_quote_spent * 100
          else 1/2
        let safe_tp_pct := min_tp_pct * (3/2)
        let effective_tp_pct := max config.take_profit_pct safe_tp_pct
        let tp_price_adaptive := avg_price * (1 + effective_tp_pct / 100)
        let safe_price := env.round_price tp_price_adaptive
        if ¬ TradingUtils.check_min_notional env final_amount safe_price then .ok db4
        else
          match env.tp_create_id with
          | none => .ok db4
          | some tp_binance_id =>
            let db5 := db4.mapCycle cycle.cid fun c =>
              { c with current_tp_order_id := some tp_binance_id }
            let db6 := db5.addOrder fun rid =>
              { oid := rid, cycle_id := cycle.cid,
                binance_order_id := some tp_binance_id, order_type := .sellTp,
                order_index := -1, price := safe_price, amount := final_amount,
                status := .active, created_at := rid }
            let next_index := db_order.order_index + 1
            match latestByCreatedAt (db6.orders.filter fun o =>
                o.cycle_id == cycle.cid && o.order_index == next_index &&
                o.order_type == OrderType.buySafety) with
            | none => .ok db6
            | some next_order =>
              let next_safe_amount := env.round_amount next_order.amount
              let next_safe_price := env.round_price next_order.price
              if ¬ TradingUtils.check_min_notional env next_safe_amount next_safe_price then
                .ok db6
              else
                match env.next_create_id with
                | none => .error ()
                | some next_binance_id =>
                  .ok (db6.mapOrderByRow next_order.oid fun o =>
                    { o with
                      binance_order_id := some next_binance_id,
                      status := .active })

/-- The profit recorded on a TP fill: reported cost (falling back to
`price · amount` when the exchange reports no cost) minus the
quote-denominated fee (falling back to 0.1% of cost), minus the cycle's
`total_quote_spent`. -/
def tp_fill_profit (binance_order : FillEvent) (total_quote_spent : ℚ) : ℚ :=
  let base_cost0 := binance_order.cost.getD 0
  let base_cost :=
    if base_cost0 = 0 then binance_order.price * binance_order.amount else base_cost0
  let fee_cost :=
    match binance_order.fee with
    | .dict fee_dict_cost fee_currency =>
      if fee_currency = FeeCurrency.usdt then fee_dict_cost
      else base_cost * (1/1000)
    | .scalar _ => base_cost * (1/1000)
    | .empty => base_cost * (1/1000)
  (base_cost - fee_cost) - total_quote_spent

/-- The state committed by `_handle_tp_fill` just before it restarts the bot
(the `session.commit()` on line 484): order FILLED, cycle CLOSED with
`closed_at` set and dust reset, remaining ACTIVE orders cancelled where the
exchange RPC succeeded, and the realised profit recorded. -/
def tp_fill_committed (env : Env) (db : Db) (db_order : DbOrder)
    (cycle : DbCycle) (binance_order : FillEvent) : Db :=
  let db1 := db.mapOrderByRow db_order.oid fun o => { o with status := .filled }
  let db2 := db1.mapCycle cycle.cid fun c =>
    { c with status := .closed, closed_at := some env.now, accumulated_dust := 0 }
  let db3 : Db := { db2 with orders := db2.orders.map fun o =>
    if o.cycle_id == cycle.cid && o.status == OrderStatus.active then
      match o.binance_order_id with
      | some bid => if env.cancel_active_ok bid then { o with status := .canceled } else o
      | none => o
    else o }
  let profit := tp_fill_profit binance_order cycle.total_quote_spent
  db3.mapCycle cycle.cid fun c => { c with profit_usdt := some profit }

/-- Mirror of `OrderHandler._handle_tp_fill`.  The fill bookkeeping is
committed before `start_first_cycle` runs, so a failed restart keeps the
committed fill state. -/
def handle_tp_fill (env : Env) (config : BotConfig) (db : Db) (db_order : DbOrder)
    (cycle : DbCycle) (binance_order : FillEvent) : Except Unit Db :=
  let db4 := tp_fill_committed env db db_order cycle binance_order
  match BotManager.start_first_cycle env config db4 with
  | .ok db5 => .ok db5
  | .error _ => .ok db4

/-- Mirror of `OrderHandler.handle_filled_order`: row lookup with the
`current_tp_order_id` fallback (synthesising a missing `SELL_TP` row), the
`status == FILLED` idempotence guard, dispatch on `order_type`, and final
commit; an uncaught exception rolls everything back to the input state. -/
def handle_filled_order (env : Env) (configs : ℕ → BotConfig) (db : Db)
    (binance_order : FillEvent) : Db :=
  let binance_id := binance_order.id
  let lookup : Option (Db × DbOrder) :=
    match db.findOrderByBinanceId binance_id with
    | some o => some (db, o)
    | none =>
      match db.cycles.find? (fun c => c.current_tp_order_id == some binance_id) with
      | some cycle_with_tp =>
        let synth : DbOrder :=
          { oid := db.next_row_id, cycle_id := cycle_with_tp.cid,
            binance_order_id := some binance_id, order_type := .sellTp,
            order_index := -1, price := binance_order.price,
            amount := binance_order.amount, status := .active,
            created_at := db.next_row_id }
        some ({ db with
          orders := db.orders ++ [synth],
          next_row_id := db.next_row_id + 1 }, synth)
      | none => none
  match lookup with
  | none => db
  | some (db0, db_order) =>
    if db_order.status == OrderStatus.filled then db0
    else
      match db0.getCycle db_order.cycle_id with
      | none => db
      | some cycle =>
        let config := configs cycle.config_id
        let res :=
          match db_order.order_type with
          | .buySafety => handle_buy_fill env config db0 db_order cycle binance_order
          | .sellTp => handle_tp_fill env config db0 db_order cycle binance_order
        match res with
        | .ok db' => db'
        | .error _ => db

end OrderHandler

/-! ## DustManager (`app/domain/services/dust_manager.py`)

Only the integer-precision branch of `_truncate_to_precision` is modelled;
the non-integer branch defers to exchange metadata. -/

namespace DustManager

structure DustResult where
  sellable_amount : ℚ
  new_dust : ℚ
deriving DecidableEq, Repr

/-- Mirror of `DustManager.process_dust` (integer `amount_precision`). -/
def process_dust (amount accumulated_dust : ℚ) (amount_precision : ℕ) : DustResult :=
  let total_with_dust := amount + accumulated_dust
  let sellable_amount := floorToPrecision total_with_dust amount_precision
  { sellable_amount := sellable_amount,
    new_dust := total_with_dust - sellable_amount }

end DustManager

/-! ## DumpDetector and TrailingTPManager (`app/domain/trailing_tp.py`)

The detector's rolling history is a list of `(time, price)` pairs.  The
manager's per-cycle dicts (`_tp_touch_counts`, `_tp_touch_times`) are modelled
for a single cycle as an optional touch record. -/

namespace DumpDetector

def max_history : ℕ := 12

/-- Mirror of `DumpDetector.add_price`. -/
def add_price (price_history : List (ℚ × ℚ)) (now price : ℚ) : List (ℚ × ℚ) :=
  let h := price_history ++ [(now, price)]
  if max_history < h.length then h.drop 1 else h

/-- Mirror of `DumpDetector.detect_rapid_drop`. -/
def detect_rapid_drop (price_history : List (ℚ × ℚ)) (threshold_pct : ℚ) : Bool :=
  if price_history.length < 6 then false
  else
    let price_30s_ago := (price_history.getD (price_history.length - 6) (0, 0)).2
    let current_price := (price_history.getD (price_history.length - 1) (0, 0)).2
    decide (threshold_pct < (price_30s_ago - current_price) / price_30s_ago * 100)

end DumpDetector

namespace TrailingTPManager

structure TouchState where
  count : ℕ
  first_touch_time : ℚ
deriving DecidableEq, Repr

/-- Result of `should_activate`: the returned pair plus the updated per-cycle
touch bookkeeping. -/
structure ActivationDecision where
  activate : Bool
  starting_max_price : Option ℚ
  touch : Option TouchState
deriving DecidableEq, Repr

/-- Mirror of `TrailingTPManager.should_activate` for one cycle.  Python
falsiness of `cycle.current_tp_price` covers both `None` and `0.0`. -/
def should_activate (trailing_enabled : Bool) (cycle : DbCycle)
    (touch : Option TouchState) (current_price now : ℚ) : ActivationDecision :=
  if ¬ trailing_enabled then ⟨false, none, touch⟩
  else if cycle.trailing_active then ⟨false, none, touch⟩
  else
    match cycle.current_tp_price with
    | none => ⟨false, none, touch⟩
    | some tp_price =>
      if tp_price = 0 then ⟨false, none, touch⟩
      else if tp_price ≤ current_price then
        let st := touch.getD ⟨0, now⟩
        let count := st.count + 1
        if 3 ≤ count then ⟨true, some tp_price, none⟩
        else if tp_price * (1002/1000) ≤ current_price then ⟨true, some tp_price, none⟩
        else if 30 < now - st.first_touch_time then ⟨true, some current_price, none⟩
        else ⟨false, none, some ⟨count, st.first_touch_time⟩⟩
      else ⟨false, none, none⟩

/-- Mirror of `TrailingTPManager.activate`: returns the updated cycle and the
reset dump-detector history (`clear()` then `add_price(current_price)`). -/
def activate (cycle : DbCycle) (current_price : ℚ)
    (starting_max_price : Option ℚ) (now : ℚ) : DbCycle × List (ℚ × ℚ) :=
  let max_tracked :=
    match starting_max_price with
    | some m => if m = 0 then current_price else m
    | none => current_price
  ({ cycle with
      trailing_active := true,
      trailing_activation_price := some current_price,
      trailing_activation_time := some now,
      max_price_tracked := some max_tracked },
   [(now, current_price)])

/-- Mirror of `TrailingTPManager.calculate_min_profit_price`
(`min_profit_pct` is the manager's `self.min_profit_pct`). -/
def calculate_min_profit_price (min_profit_pct : ℚ) (cycle : DbCycle) : ℚ :=
  if cycle.avg_price = 0 then 0
  else
    match cycle.current_tp_price with
    | none => 0
    | some tp =>
      if tp = 0 then 0
      else
        let effective_tp_pct := (tp / cycle.avg_price - 1) * 100
        let adaptive_min_profit_pct := effective_tp_pct * (66/100)
        let final_min_profit_pct := max adaptive_min_profit_pct min_profit_pct
        cycle.avg_price * (1 + final_min_profit_pct / 100)

/-- Mirror of `TrailingTPManager.emergency_market_sell`:
`env.market_sell_ok = false` stands for a raised exchange error (caught,
returns `False` without marking the cycle). -/
def emergency_market_sell (free_base : ℚ) (market_sell_ok : Bool)
    (cycle : DbCycle) (reason : String) (now : ℚ) : DbCycle × Bool :=
  if free_base ≤ 0 then (cycle, false)
  else if market_sell_ok then
    ({ cycle with
        emergency_exit := true,
        emergency_exit_reason := some reason,
        emergency_exit_time := some now }, true)
  else (cycle, false)

inductive EmergencyTrigger
  | noTrigger | belowMinProfit | dumpDetected
deriving DecidableEq, Repr

structure MonitorResult where
  trigger : EmergencyTrigger
  fired : Bool
  cycle : DbCycle
  history : List (ℚ × ℚ)
deriving DecidableEq, Repr

/-- Mirror of `TrailingTPManager.monitor_emergency_exit`. -/
def monitor_emergency_exit (free_base : ℚ) (market_sell_ok : Bool)
    (min_profit_pct : ℚ) (cycle : DbCycle) (current_price : ℚ)
    (price_history : List (ℚ × ℚ)) (now : ℚ) : MonitorResult :=
  if ¬ cycle.trailing_active then ⟨.noTrigger, false, cycle, price_history⟩
  else
    let history1 := DumpDetector.add_price price_history now current_price
    let min_profit_price := calculate_min_profit_price min_profit_pct cycle
    let emergency_threshold := min_profit_price * (995/1000)
    if current_price < emergency_threshold then
      let sold := emergency_market_sell free_base market_sell_ok cycle "Below min_profit" now
      ⟨.belowMinProfit, sold.2, sold.1, history1⟩
    else if DumpDetector.detect_rapid_drop history1 2 then
      let sold := emergency_market_sell free_base market_sell_ok cycle "Dump detected" now
      ⟨.dumpDetected, sold.2, sold.1, history1⟩
    else ⟨.noTrigger, false, cycle, history1⟩

/-- Repeated ticker updates through `monitor_emergency_exit`, threading the
cycle and the detector history; collects each tick's trigger. -/
def monitorSeq (free_base : ℚ) (market_sell_ok : Bool) (min_profit_pct : ℚ) :
    DbCycle → List (ℚ × ℚ) → List (ℚ × ℚ) → List EmergencyTrigger
  | _, _, [] => []
  | cycle, history, (t, p) :: rest =>
    let r := monitor_emergency_exit free_base market_sell_ok min_profit_pct cycle p history t
    r.trigger :: monitorSeq free_base market_sell_ok min_profit_pct r.cycle r.history rest

end TrailingTPManager

/-! ## Grid-shift check (`app/shared/websocket.py`, `_check_grid_shift`) -/

namespace BinanceWebsocketManager

structure ShiftOutcome where
  shifted : Bool
  last_shift_time : Option ℚ
deriving DecidableEq, Repr

/-- Mirror of `BinanceWebsocketManager._check_grid_shift`.  `shift_grid_ok`
tells whether the `BotManager.shift_grid` call commits (an exception there
propagates and leaves `_last_shift_time` unset). -/
def check_grid_shift (db : Db) (config_id : ℕ) (config? : Option BotConfig)
    (last_shift_time : Option ℚ) (now : ℚ) (ticker_last : Option ℚ)
    (shift_grid_ok : Bool) : ShiftOutcome :=
  match ticker_last with
  | none => ⟨false, last_shift_time⟩
  | some current_price =>
    if current_price = 0 then ⟨false, last_shift_time⟩
    else
      let throttled : Bool :=
        match last_shift_time with
        | some t => decide (now - t < 15)
        | none => false
      if throttled then ⟨false, last_shift_time⟩
      else
        match db.cycles.find? (fun c =>
            c.config_id == config_id && c.status == CycleStatus.opened) with
        | none => ⟨false, last_shift_time⟩
        | some cycle =>
          match db.orders.find? (fun o =>
              o.cycle_id == cycle.cid && o.order_index == 0 &&
              o.order_type == OrderType.buySafety) with
          | none => ⟨false, last_shift_time⟩
          | some first_order =>
            if first_order.status = OrderStatus.filled then ⟨false, last_shift_time⟩
            else
              match config? with
              | none => ⟨false, last_shift_time⟩
              | some config =>
                let reference_order_price :=
                  match cycle.initial_first_order_price with
                  | some r => if r = 0 then first_order.price else r
                  | none => first_order.price
                let ideal_entry_price :=
                  current_price * (1 - config.first_order_offset_pct / 100)
                let shift_diff_pct :=
                  (ideal_entry_price - reference_order_price) / reference_order_price * 100
                if config.grid_shift_threshold_pct ≤ shift_diff_pct then
                  if shift_grid_ok then ⟨true, some now⟩ else ⟨false, last_shift_time⟩
                else ⟨false, last_shift_time⟩

/-- A run of ticker events `(now, ticker_last, shift_grid_ok)` through
`_check_grid_shift`, returning the times of performed shifts. -/
def run_ticker_events (db : Db) (config_id : ℕ) (config? : Option BotConfig) :
    List (ℚ × Option ℚ × Bool) → Option ℚ → List ℚ
  | [], _ => []
  | (now, tick, ok) :: rest, last =>
    let r := check_grid_shift db config_id config? last now tick ok
    (if r.shifted then [now] else []) ++ run_ticker_events db config_id config? rest r.last_shift_time

end BinanceWebsocketManager

/-! ## C10: dump-detector warm-up -/

namespace TrailingTPManager

/-- A sample cycle whose TP sits at 100 (used to exercise activation). -/
def testCycle : DbCycle :=
  { cid := 1, config_id := 1, status := .opened, total_base_qty := 1,
    total_quote_spent := 99, avg_price := 99, initial_first_order_price := none,
    current_tp_order_id := some 5, current_tp_price := some 100,
    accumulated_dust := 0, profit_usdt := none, closed_at := none,
    trailing_active := false, max_price_tracked := none,
    trailing_activation_price := none, trailing_activation_time := none,
    emergency_exit := false, emergency_exit_reason := none,
    emergency_exit_time := none }

/-- A sample cycle matching the spec's trailing scenario (`avg_price = 3000`,
TP at 3036). -/
def testCycleActive : DbCycle :=
  { testCycle with
    total_base_qty := 1, total_quote_spent := 3000, avg_price := 3000,
    current_tp_price := some 3036 }

theorem add_price_length_le (h : List (ℚ × ℚ)) (t p : ℚ) :
    (DumpDetector.add_price h t p).length ≤ h.length + 1 := by
  simp only [DumpDetector.add_price]
  split <;> simp

theorem detect_short_false (h : List (ℚ × ℚ)) (th : ℚ) (hlen : h.length < 6) :
    DumpDetector.detect_rapid_drop h th = false := by
  unfold DumpDetector.detect_rapid_drop
  rw [if_pos hlen]

theorem monitor_history_length_le (fb : ℚ) (ok : Bool) (mpp : ℚ) (cycle : DbCycle)
    (p : ℚ) (history : List (ℚ × ℚ)) (t : ℚ) :
    (monitor_emergency_exit fb ok mpp cycle p history t).history.length ≤
      history.length + 1 := by
  simp only [monitor_emergency_exit]
  split_ifs <;>
    first
      | exact Nat.le_succ _
      | exact add_price_length_le history t p

theorem monitor_no_dump_of_short (fb : ℚ) (ok : Bool) (mpp : ℚ) (cycle : DbCycle)
    (p : ℚ) (history : List (ℚ × ℚ)) (t : ℚ) (hlen : history.length < 5) :
    (monitor_emergency_exit fb ok mpp cycle p history t).trigger ≠ .dumpDetected := by
  have hdetect : DumpDetector.detect_rapid_drop (DumpDetector.add_price history t p) 2 = false := by
    apply detect_short_false
    have := add_price_length_le history t p
    omega
  simp only [monitor_emergency_exit]
  split_ifs with h1 h2 h3 <;> simp_all

theorem monitorSeq_no_dump (fb : ℚ) (ok : Bool) (mpp : ℚ) :
    ∀ (ticks : List (ℚ × ℚ)) (cycle : DbCycle) (history : List (ℚ × ℚ)),
      history.length + ticks.length ≤ 5 →
      ∀ tr ∈ monitorSeq fb ok mpp cycle history ticks, tr ≠ .dumpDetected := by
  intro ticks
  induction ticks with
  | nil => intro cycle history _ tr htr; simp [monitorSeq] at htr
  | cons tp rest ih =>
    intro cycle history hlen tr htr
    obtain ⟨t, p⟩ := tp
    simp only [monitorSeq, List.mem_cons] at htr
    rcases htr with h | h
    · subst h
      exact monitor_no_dump_of_short fb ok mpp cycle p history t (by
        simp only [List.length_cons] at hlen; omega)
    · refine ih _ _ ?_ tr h
      have := monitor_history_length_le fb ok mpp cycle p history t
      simp only [List.length_cons] at hlen
      omega

end TrailingTPManager

/-- C10: the dump-based emergency exit has a warm-up period:
`detect_rapid_drop` returns `false` on fewer than 6 samples, trailing
activation resets the price history to exactly one seeded sample, and hence
the dump branch of `monitor_emergency_exit` cannot fire on the first four
ticker updates after activation. -/
theorem dump_warmup_after_activation :
    (∀ (h : List (ℚ × ℚ)) (th : ℚ), h.length < 6 →
      DumpDetector.detect_rapid_drop h th = false) ∧
    (∀ (cycle : DbCycle) (p : ℚ) (sm : Option ℚ) (now : ℚ),
      (TrailingTPManager.activate cycle p sm now).2 = [(now, p)]) ∧
    (∀ (fb : ℚ) (ok : Bool) (mpp : ℚ) (cycle : DbCycle) (t0 p0 : ℚ)
      (ticks : List (ℚ × ℚ)), ticks.length ≤ 4 →
      ∀ tr ∈ TrailingTPManager.monitorSeq fb ok mpp cycle [(t0, p0)] ticks,
        tr ≠ TrailingTPManager.EmergencyTrigger.dumpDetected) := by
  refine ⟨TrailingTPManager.detect_short_false, fun _ _ _ _ => rfl, ?_⟩
  intro fb ok mpp cycle t0 p0 ticks hlen
  exact TrailingTPManager.monitorSeq_no_dump fb ok mpp ticks cycle [(t0, p0)] (by
    simp only [List.length_cons, List.length_nil]; omega)

/-- C10 witness: a concrete post-activation history and four ticks with a
price crash from 3060 to 2998: no tick triggers the dump branch. -/
theorem dump_warmup_after_activation_witness :
    ([((0:ℚ), (3060:ℚ))].length < 6 →
      DumpDetector.detect_rapid_drop [((0:ℚ), (3060:ℚ))] 2 = false) ∧
    (([((10:ℚ), (3050:ℚ)), (20, 3020), (25, 3005), (30, 2998)].length ≤ 4 →
      ∀ tr ∈ TrailingTPManager.monitorSeq 1 true 1
        (TrailingTPManager.activate TrailingTPManager.testCycleActive 3060 (some 3036) 0).1
        [((0:ℚ), (3060:ℚ))]
        [((10:ℚ), (3050:ℚ)), (20, 3020), (25, 3005), (30, 2998)],
        tr ≠ TrailingTPManager.EmergencyTrigger.dumpDetected)) :=
  ⟨dump_warmup_after_activation.1 [((0:ℚ), (3060:ℚ))] 2,
   dump_warmup_after_activation.2.2 1 true 1
     (TrailingTPManager.activate TrailingTPManager.testCycleActive 3060 (some 3036) 0).1
     0 3060 [((10:ℚ), (3050:ℚ)), (20, 3020), (25, 3005), (30, 2998)]⟩

/-! ## C5: trailing activation bookkeeping -/

/-- C5 (counterexample): with TP = 100 and a tick at price 100.2 (= TP·1.002),
`should_activate` confirms by overshoot and returns the TP price as starting
max, so `activate` sets `max_price_tracked = 100` — not
`max(current_tp_price, price) = 100.2` as the claim states. -/
theorem trailing_activation_counterexample :
    TrailingTPManager.should_activate true TrailingTPManager.testCycle none (501/5) 0 =
      ⟨true, some 100, none⟩ ∧
    (TrailingTPManager.activate TrailingTPManager.testCycle (501/5)
      (some 100) 0).1.max_price_tracked = some 100 ∧
    ¬ ((100 : ℚ) = max 100 (501/5)) := by
  refine ⟨?_, ?_, by norm_num⟩
  · norm_num [TrailingTPManager.should_activate, TrailingTPManager.testCycle]
  · norm_num [TrailingTPManager.activate, TrailingTPManager.testCycle]

/-- C5 (amended): on every tick on which `should_activate` fires, `activate`
sets `trailing_activation_price = price`, `trailing_activation_time = now`,
and `max_price_tracked` equal to the starting max returned by the
confirmation: the TP price for the touch-count and 0.2%-overshoot paths, the
current price for the 30 s-timeout path (not `max(current_tp_price, price)`). -/
theorem trailing_activation_fields (cycle : DbCycle)
    (touch : Option TrailingTPManager.TouchState) (tp current_price now : ℚ)
    (sm : Option ℚ) (st2 : Option TrailingTPManager.TouchState)
    (htp : cycle.current_tp_price = some tp)
    (h : TrailingTPManager.should_activate true cycle touch current_price now =
      ⟨true, sm, st2⟩) :
    (TrailingTPManager.activate cycle current_price sm now).1.trailing_active = true ∧
    (TrailingTPManager.activate cycle current_price sm now).1.trailing_activation_price =
      some current_price ∧
    (TrailingTPManager.activate cycle current_price sm now).1.trailing_activation_time =
      some now ∧
    (TrailingTPManager.activate cycle current_price sm now).1.max_price_tracked = sm ∧
    sm = (if 3 ≤ (touch.getD ⟨0, now⟩).count + 1 then some tp
          else if tp * (1002/1000) ≤ current_price then some tp
          else some current_price) := by
  simp only [TrailingTPManager.should_activate, htp, not_true, Bool.not_eq_true,
    if_false] at h
  split_ifs at h with h1 h2 h3 h4 h5 h6 <;>
    simp only [TrailingTPManager.ActivationDecision.mk.injEq] at h
  · exact absurd h.1 (by simp)
  · exact absurd h.1 (by simp)
  · -- touch-count confirmation
    obtain ⟨-, hsm, -⟩ := h
    subst hsm
    refine ⟨rfl, rfl, rfl, ?_, ?_⟩
    · simp [TrailingTPManager.activate, h2]
    · rw [if_pos h4]
  · -- overshoot confirmation
    obtain ⟨-, hsm, -⟩ := h
    subst hsm
    refine ⟨rfl, rfl, rfl, ?_, ?_⟩
    · simp [TrailingTPManager.activate, h2]
    · rw [if_neg h4, if_pos h5]
  · -- timeout confirmation
    obtain ⟨-, hsm, -⟩ := h
    subst hsm
    refine ⟨rfl, rfl, rfl, ?_, ?_⟩
    · simp [TrailingTPManager.activate]
    · rw [if_neg h4, if_neg h5]
  · exact absurd h.1 (by simp)
  · exact absurd h.1 (by simp)

/-- C5 witness: the amended statement applied at the overshoot tick of the
counterexample. -/
theorem trailing_activation_fields_witness :
    (TrailingTPManager.activate TrailingTPManager.testCycle (501/5)
      (some 100) 0).1.max_price_tracked = some 100 :=
  (trailing_activation_fields TrailingTPManager.testCycle none 100 (501/5) 0
    (some 100) none rfl
    (by norm_num [TrailingTPManager.should_activate, TrailingTPManager.testCycle])).2.2.2.1

/-! ## C7: grid-shift trigger condition and throttle -/

namespace BinanceWebsocketManager

theorem check_shift_true (db : Db) (cfgid : ℕ) (cfg? : Option BotConfig)
    (last : Option ℚ) (now : ℚ) (tick : Option ℚ) (ok : Bool)
    (h : (check_grid_shift db cfgid cfg? last now tick ok).shifted = true) :
    (check_grid_shift db cfgid cfg? last now tick ok).last_shift_time = some now ∧
      ∀ t, last = some t → 15 ≤ now - t := by
  rcases tick with _ | price
  · simp [check_grid_shift] at h
  · by_cases hp : price = 0
    · simp [check_grid_shift, hp] at h
    · rcases hl : last with _ | t
      · subst hl
        rcases hc : db.cycles.find? (fun c =>
            c.config_id == cfgid && c.status == CycleStatus.opened) with _ | cycle
        · simp [check_grid_shift, hp, hc] at h
        · rcases ho : db.orders.find? (fun o =>
              o.cycle_id == cycle.cid && o.order_index == 0 &&
              o.order_type == OrderType.buySafety) with _ | fo
          · simp [check_grid_shift, hp, hc, ho] at h
          · by_cases hf : fo.status = OrderStatus.filled
            · simp [check_grid_shift, hp, hc, ho, hf] at h
            · rcases cfg? with _ | config
              · simp [check_grid_shift, hp, hc, ho, hf] at h
              · simp only [check_grid_shift, hp, hc, ho, hf] at h ⊢
                refine ⟨?_, by rintro t ht; cases ht⟩
                split_ifs at h ⊢ <;> simp_all
      · subst hl
        by_cases hth : now - t < 15
        · simp [check_grid_shift, hp, hth] at h
        · rcases hc : db.cycles.find? (fun c =>
              c.config_id == cfgid && c.status == CycleStatus.opened) with _ | cycle
          · simp [check_grid_shift, hp, hth, hc] at h
          · rcases ho : db.orders.find? (fun o =>
                o.cycle_id == cycle.cid && o.order_index == 0 &&
                o.order_type == OrderType.buySafety) with _ | fo
            · simp [check_grid_shift, hp, hth, hc, ho] at h
            · by_cases hf : fo.status = OrderStatus.filled
              · simp [check_grid_shift, hp, hth, hc, ho, hf] at h
              · rcases cfg? with _ | config
                · simp [check_grid_shift, hp, hth, hc, ho, hf] at h
                · simp only [check_grid_shift, hp, hth, hc, ho, hf] at h ⊢
                  refine ⟨?_, ?_⟩
                  · split_ifs at h ⊢ <;> simp_all
                  · rintro t2 ht2
                    cases ht2
                    linarith [not_lt.mp hth]

theorem check_shift_false (db : Db) (cfgid : ℕ) (cfg? : Option BotConfig)
    (last : Option ℚ) (now : ℚ) (tick : Option ℚ) (ok : Bool)
    (h : (check_grid_shift db cfgid cfg? last now tick ok).shifted = false) :
    (check_grid_shift db cfgid cfg? last now tick ok).last_shift_time = last := by
  rcases tick with _ | price
  · rfl
  · by_cases hp : price = 0
    · simp [check_grid_shift, hp]
    · rcases hl : last with _ | t
      all_goals subst hl
      · rcases hc : db.cycles.find? (fun c =>
            c.config_id == cfgid && c.status == CycleStatus.opened) with _ | cycle
        · simp [check_grid_shift, hp, hc]
        · rcases ho : db.orders.find? (fun o =>
              o.cycle_id == cycle.cid && o.order_index == 0 &&
              o.order_type == OrderType.buySafety) with _ | fo
          · simp [check_grid_shift, hp, hc, ho]
          · by_cases hf : fo.status = OrderStatus.filled
            · simp [check_grid_shift, hp, hc, ho, hf]
            · rcases cfg? with _ | config
              · simp [check_grid_shift, hp, hc, ho, hf]
              · simp only [check_grid_shift, hp, hc, ho, hf] at h ⊢
                split_ifs at h ⊢ <;> simp_all
      · by_cases hth : now - t < 15
        · simp [check_grid_shift, hp, hth]
        · rcases hc : db.cycles.find? (fun c =>
              c.config_id == cfgid && c.status == CycleStatus.opened) with _ | cycle
          · simp [check_grid_shift, hp, hth, hc]
          · rcases ho : db.orders.find? (fun o =>
                o.cycle_id == cycle.cid && o.order_index == 0 &&
                o.order_type == OrderType.buySafety) with _ | fo
            · simp [check_grid_shift, hp, hth, hc, ho]
            · by_cases hf : fo.status = OrderStatus.filled
              · simp [check_grid_shift, hp, hth, hc, ho, hf]
              · rcases cfg? with _ | config
                · simp [check_grid_shift, hp, hth, hc, ho, hf]
                · simp only [check_grid_shift, hp, hth, hc, ho, hf] at h ⊢
                  split_ifs at h ⊢ <;> simp_all

theorem run_spacing (db : Db) (cfgid : ℕ) (cfg? : Option BotConfig) :
    ∀ (events : List (ℚ × Option ℚ × Bool)) (last : Option ℚ),
      (∀ t, last = some t →
        List.Chain' (fun a b => 15 ≤ b - a)
          (t :: run_ticker_events db cfgid cfg? events last)) ∧
      List.Chain' (fun a b => 15 ≤ b - a)
        (run_ticker_events db cfgid cfg? events last) := by
  intro events
  induction events with
  | nil =>
    intro last
    exact ⟨fun t _ => List.chain'_singleton t, List.chain'_nil⟩
  | cons e rest ih =>
    obtain ⟨now, tick, ok⟩ := e
    intro last
    by_cases hs : (check_grid_shift db cfgid cfg? last now tick ok).shifted = true
    · obtain ⟨hlast2, hgap⟩ := check_shift_true db cfgid cfg? last now tick ok hs
      have hrun : run_ticker_events db cfgid cfg? ((now, tick, ok) :: rest) last
          = now :: run_ticker_events db cfgid cfg? rest (some now) := by
        simp [run_ticker_events, hs, hlast2]
      constructor
      · intro t hlt
        rw [hrun]
        exact List.chain'_cons.mpr ⟨hgap t hlt, (ih (some now)).1 now rfl⟩
      · rw [hrun]
        exact (ih (some now)).1 now rfl
    · have hs2 : (check_grid_shift db cfgid cfg? last now tick ok).shifted = false := by
        simpa using hs
      have hlast2 := check_shift_false db cfgid cfg? last now tick ok hs2
      have hrun : run_ticker_events db cfgid cfg? ((now, tick, ok) :: rest) last
          = run_ticker_events db cfgid cfg? rest last := by
        simp [run_ticker_events, hs2, hlast2]
      rw [hrun]
      exact ih last

end BinanceWebsocketManager

/-- C7: a grid shift is performed iff the ticker carries a nonzero price, 15 s
have elapsed since the previous successful shift, an OPEN cycle with a rung-0
BUY_SAFETY order exists, rung 0 is not FILLED, the config row loads,
`shift_grid` commits, and
`(ideal_entry − reference)/reference·100 ≥ grid_shift_threshold_pct` where
`ideal_entry = price·(1 − first_order_offset_pct/100)` and `reference` is
`cycle.initial_first_order_price` if set (and nonzero) else the rung-0 price;
and along any run of ticker events no two performed shifts lie within 15 s of
each other. -/
theorem grid_shift_trigger_iff_and_throttle :
    (∀ (db : Db) (cfgid : ℕ) (config : BotConfig) (last : Option ℚ)
      (now price : ℚ) (ok : Bool) (cycle : DbCycle) (first_order : DbOrder),
      db.cycles.find? (fun c => c.config_id == cfgid && c.status == CycleStatus.opened)
        = some cycle →
      db.orders.find? (fun o => o.cycle_id == cycle.cid && o.order_index == 0 &&
        o.order_type == OrderType.buySafety) = some first_order →
      ((BinanceWebsocketManager.check_grid_shift db cfgid (some config) last now
          (some price) ok).shifted = true ↔
        (ok = true ∧ ¬ price = 0 ∧ (∀ t, last = some t → 15 ≤ now - t) ∧
          first_order.status ≠ OrderStatus.filled ∧
          config.grid_shift_threshold_pct ≤
            (price * (1 - config.first_order_offset_pct / 100) -
              (match cycle.initial_first_order_price with
                | some r => if r = 0 then first_order.price else r
                | none => first_order.price)) /
              (match cycle.initial_first_order_price with
                | some r => if r = 0 then first_order.price else r
                | none => first_order.price) * 100))) ∧
    (∀ (db : Db) (cfgid : ℕ) (config? : Option BotConfig)
      (events : List (ℚ × Option ℚ × Bool)),
      List.Chain' (fun a b => 15 ≤ b - a)
        (BinanceWebsocketManager.run_ticker_events db cfgid config? events none)) := by
  constructor
  · intro db cfgid config last now price ok cycle first_order hc ho
    by_cases hp : price = 0
    · simp [BinanceWebsocketManager.check_grid_shift, hp]
    · by_cases hf : first_order.status = OrderStatus.filled
      · rcases hl : last with _ | t
        · simp [BinanceWebsocketManager.check_grid_shift, hp, hc, ho, hf]
        · by_cases hth : now - t < 15
          · simp only [BinanceWebsocketManager.check_grid_shift, hp, hth]
            simp [hth]
          · simp [BinanceWebsocketManager.check_grid_shift, hp, hth, hc, ho, hf]
      · rcases hl : last with _ | t
        · simp only [BinanceWebsocketManager.check_grid_shift, hp, hc, ho, hf]
          split_ifs with hd hok <;> simp_all
        · by_cases hth : now - t < 15
          · simp only [BinanceWebsocketManager.check_grid_shift, hp, hth]
            simp [hth]
          · simp only [BinanceWebsocketManager.check_grid_shift, hp, hth, hc, ho, hf]
            have h15 : 15 ≤ now - t := not_lt.mp hth
            split_ifs with hd hok <;> simp_all
  · intro db cfgid config? events
    exact (BinanceWebsocketManager.run_spacing db cfgid config? events none).2

/-- Concrete fixtures for the grid-shift witness (spec scenario 4: initial
first-order price 2985, ticker 3060, offset 0.5%, threshold 0.6%). -/
def shiftTestConfig : BotConfig :=
  { id := 1, total_budget := 100, safety_orders_count := 5, grid_length_pct := 5,
    first_order_offset_pct := 1/2, volume_scale_pct := 40,
    grid_shift_threshold_pct := 3/5, take_profit_pct := 6/5,
    trailing_enabled := false, trailing_callback_pct := 4/5,
    trailing_min_profit_pct := 1 }

def shiftTestOrder : DbOrder :=
  { oid := 1, cycle_id := 1, binance_order_id := some 11, order_type := .buySafety,
    order_index := 0, price := 2985, amount := 1/100, status := .active,
    created_at := 1 }

def shiftTestDb : Db :=
  { orders := [shiftTestOrder],
    cycles := [{ TrailingTPManager.testCycle with
      initial_first_order_price := some 2985 }],
    next_row_id := 2, next_cycle_id := 2 }

/-- C7 witness: at ticker 3060 the drift is ≈2.0% ≥ 0.6%, so the shift fires;
and a concrete two-event run satisfies the 15 s spacing. -/
theorem grid_shift_trigger_witness :
    (BinanceWebsocketManager.check_grid_shift shiftTestDb 1 (some shiftTestConfig)
      none 0 (some 3060) true).shifted = true ∧
    List.Chain' (fun a b => 15 ≤ b - a)
      (BinanceWebsocketManager.run_ticker_events shiftTestDb 1 (some shiftTestConfig)
        [(0, some 3060, true), (20, some 3060, true)] none) := by
  constructor
  · refine (grid_shift_trigger_iff_and_throttle.1 shiftTestDb 1 shiftTestConfig none
      0 3060 true { TrailingTPManager.testCycle with
        initial_first_order_price := some 2985 } shiftTestOrder rfl rfl).mpr
      ⟨rfl, by norm_num, ?_, ?_, ?_⟩
    · rintro t ht; cases ht
    · simp [shiftTestOrder]
    · norm_num [TrailingTPManager.testCycle, shiftTestOrder, shiftTestConfig]
  · exact grid_shift_trigger_iff_and_throttle.2 shiftTestDb 1 (some shiftTestConfig)
      [(0, some 3060, true), (20, some 3060, true)]

/-! ## C4: start_first_cycle budget cap -/

/-- Modelled from the spec's words, for comparison with the code (C4):
`effective_budget = min(config.total_budget, free_quote · 0.99)`. -/
def spec_effective_budget (total_budget free_usdt : ℚ) : ℚ :=
  min total_budget (free_usdt * (99/100))

theorem foldl_addOrder_orders_map {α β : Type} (proj : DbOrder → β)
    (mkf : α → ℕ → DbOrder)
    (hproj : ∀ a r1 r2, proj (mkf a r1) = proj (mkf a r2)) :
    ∀ (l : List α) (db : Db),
      ((l.foldl (fun d a => d.addOrder (mkf a)) db).orders).map proj =
        db.orders.map proj ++ l.map (fun a => proj (mkf a 0)) := by
  intro l
  induction l with
  | nil => intro db; simp
  | cons a t ih =>
    intro db
    simp only [List.foldl_cons, List.map_cons]
    rw [ih]
    simp only [Db.addOrder, List.map_append, List.map_cons, List.map_nil,
      List.append_assoc, List.singleton_append]
    rw [hproj a db.next_row_id 0]

/-- C4 (amended): `start_first_cycle` fails with the insufficient-balance
error exactly when free quote < 10, and on success the created rungs are the
grid over `effective_budget`, which is `total_budget` when
`total_budget ≤ free_quote` and `free_quote · 0.99` otherwise — not
`min(total_budget, free_quote · 0.99)`. -/
theorem start_first_cycle_budget (env : Env) (config : BotConfig) (db : Db) :
    (BotManager.start_first_cycle env config db =
        .error .insufficientBalance ↔ env.free_usdt < 10) ∧
    (∀ db2, BotManager.start_first_cycle env config db = .ok db2 →
      ∃ gc, mkGridConfig env.current_price
          (BotManager.effective_budget config env.free_usdt)
          config.safety_orders_count config.grid_length_pct
          config.first_order_offset_pct config.volume_scale_pct
          env.amount_precision env.price_precision = .ok gc ∧
        db2.orders.map (fun o => (o.price, o.amount)) =
          db.orders.map (fun o => (o.price, o.amount)) ++
            (GridCalculator.calculate gc).map
              (fun item => (item.price, item.amount_base))) := by
  unfold BotManager.start_first_cycle
  by_cases hfree : env.free_usdt < BotManager.MIN_TRADING_AMOUNT
  · rw [if_pos hfree]
    constructor
    · simpa [BotManager.MIN_TRADING_AMOUNT] using hfree
    · intro db2 h; cases h
  · rw [if_neg hfree]
    rcases hm : mkGridConfig env.current_price
        (BotManager.effective_budget config env.free_usdt)
        config.safety_orders_count config.grid_length_pct
        config.first_order_offset_pct config.volume_scale_pct
        env.amount_precision env.price_precision with e | gc
    · simp only [hm]
      constructor
      · constructor
        · intro h; cases h
        · intro h; exact absurd h (by simpa [BotManager.MIN_TRADING_AMOUNT] using hfree)
      · intro db2 h; cases h
    · simp only [hm]
      rcases hcalc : GridCalculator.calculate gc with _ | ⟨first_item, rest⟩
      · constructor
        · constructor
          · intro h; cases h
          · intro h; exact absurd h (by simpa [BotManager.MIN_TRADING_AMOUNT] using hfree)
        · intro db2 h; cases h
      · by_cases hnot : TradingUtils.check_min_notional env
            (env.round_amount first_item.amount_base) (env.round_price first_item.price) = true
        · simp only [hnot, not_true, if_false, ite_false, ite_true, if_neg,
            not_false_eq_true, if_true]
          rcases hcid : env.first_create_id with _ | fid
          · simp only [hcid]
            constructor
            · constructor
              · intro h; cases h
              · intro h; exact absurd h (by simpa [BotManager.MIN_TRADING_AMOUNT] using hfree)
            · intro db2 h; cases h
          · simp only [hcid]
            constructor
            · constructor
              · intro h; cases h
              · intro h; exact absurd h (by simpa [BotManager.MIN_TRADING_AMOUNT] using hfree)
            · intro db2 h
              refine ⟨gc, rfl, ?_⟩
              cases h
              rw [foldl_addOrder_orders_map (fun o => (o.price, o.amount))
                _ (fun item r1 r2 => rfl) (first_item :: rest) _]
              rw [← hcalc]
        · simp only [hnot]
          constructor
          · constructor
            · intro h; simp at h
            · intro h; exact absurd h (by simpa [BotManager.MIN_TRADING_AMOUNT] using hfree)
          · intro db2 h; simp at h

/-- An empty database. -/
def emptyDb : Db := { orders := [], cycles := [], next_row_id := 0, next_cycle_id := 0 }

/-- A single-rung config with budget 99.5 against a free balance of 100. -/
def startTestConfig : BotConfig :=
  { id := 1, total_budget := 199/2, safety_orders_count := 1, grid_length_pct := 0,
    first_order_offset_pct := 0, volume_scale_pct := 0,
    grid_shift_threshold_pct := 3/5, take_profit_pct := 6/5,
    trailing_enabled := false, trailing_callback_pct := 4/5,
    trailing_min_profit_pct := 1 }

/-- A concrete benign environment: identity precision rounding, no
min-notional, all exchange calls succeed, free quote 100, price 100. -/
def startTestEnv : Env :=
  { taker_fee := none, cancel_old_tp_ok := true, free_base := 0,
    amount_precision := 4, price_precision := 2, round_price := fun q => q,
    round_amount := fun q => q, min_notional := 0, tp_create_id := some 31,
    next_create_id := some 32, cancel_active_ok := fun _ => true, now := 0,
    free_usdt := 100, current_price := 100, first_create_id := some 21 }

/-- C4 (counterexample): with `total_budget = 99.5` and `free_quote = 100`
(so `total_budget ≤ free_quote` but `total_budget > free_quote · 0.99`),
`start_first_cycle` grids over 99.5 — its rung amount is 0.995 — whereas the
claimed `min(total_budget, free_quote · 0.99) = 99` would give 0.99. -/
theorem start_budget_counterexample :
    ((BotManager.start_first_cycle startTestEnv startTestConfig emptyDb).map
        fun d => d.orders.map DbOrder.amount) = .ok [199/200] ∧
    (GridCalculator.calculate
        ⟨100, spec_effective_budget (199/2) 100, 1, 0, 0, 0, 4, 2⟩).map
        GridOrder.amount_base = [99/100] ∧
    ¬ ((199/200 : ℚ) = 99/100) := by
  refine ⟨?_, ?_, by norm_num⟩
  · simp only [BotManager.start_first_cycle, BotManager.MIN_TRADING_AMOUNT,
      BotManager.effective_budget, BotManager.BALANCE_RESERVE_PCT, mkGridConfig,
      startTestEnv, startTestConfig, emptyDb, GridCalculator.calculate,
      GridCalculator.createOrder, GridCalculator.firstOrderPrice,
      GridCalculator.lastOrderPrice, GridCalculator.priceStep,
      GridCalculator.volumeMultiplier, GridCalculator.volumeWeights,
      TradingUtils.check_min_notional, Db.addOrder,
      show ((1:ℤ).toNat = 1) from rfl, List.range_succ, List.range_zero,
      List.map_nil, List.map_cons, List.map_append, List.sum_cons, List.sum_nil,
      List.nil_append, List.foldl_cons, List.foldl_nil]
    norm_num [pyRound, roundHalfEven, truncToPrecision, intTruncTowardZero]
    simp only [List.range_succ, List.range_zero, List.map_nil, List.map_cons,
      List.nil_append, List.foldl_cons, List.foldl_nil, Except.map]
  · simp only [GridCalculator.calculate, GridCalculator.createOrder,
      GridCalculator.firstOrderPrice, GridCalculator.lastOrderPrice,
      GridCalculator.priceStep, GridCalculator.volumeMultiplier,
      GridCalculator.volumeWeights, spec_effective_budget,
      show ((1:ℤ).toNat = 1) from rfl, List.range_succ, List.range_zero,
      List.map_nil, List.map_cons, List.sum_cons, List.sum_nil, List.nil_append]
    norm_num [pyRound, roundHalfEven, truncToPrecision, intTruncTowardZero]

/-- C4 witness: the amended statement at the counterexample input — the
insufficient-balance equivalence and the grid over `effective_budget`. -/
theorem start_first_cycle_budget_witness :
    ¬ (BotManager.start_first_cycle startTestEnv startTestConfig emptyDb =
        .error .insufficientBalance) := by
  have h := (start_first_cycle_budget startTestEnv startTestConfig emptyDb).1
  intro hcontra
  have := h.mp hcontra
  revert this
  norm_num [startTestEnv]

/-- C8 witness: the validation equivalence applied at the spec's seed config
(3000, 100, 5 levels, 5% length, 0.5% offset, 40% scale). -/
theorem gridConfig_validation_exact_witness :
    ∃ c, mkGridConfig 3000 100 5 5 (1/2) 40 4 2 = .ok c :=
  (gridConfig_validation_exact 3000 100 5 5 (1/2) 40 4 2).mpr
    (by unfold GridConfig.validDomain; norm_num)

/-! ## Db lookup lemmas -/

namespace Db

theorem cycles_mapOrderByRow (db : Db) (i : ℕ) (f : DbOrder → DbOrder) :
    (db.mapOrderByRow i f).cycles = db.cycles := rfl

theorem cycles_mapOrdersByBinanceId (db : Db) (b : ℕ) (f : DbOrder → DbOrder) :
    (db.mapOrdersByBinanceId b f).cycles = db.cycles := rfl

theorem cycles_addOrder (db : Db) (mk : ℕ → DbOrder) :
    (db.addOrder mk).cycles = db.cycles := rfl

theorem orders_mapCycle (db : Db) (i : ℕ) (f : DbCycle → DbCycle) :
    (db.mapCycle i f).orders = db.orders := rfl

theorem getCycle_eq_cid {db : Db} {cid : ℕ} {c : DbCycle}
    (h : db.getCycle cid = some c) : c.cid = cid := by
  unfold getCycle at h
  have := List.find?_some h
  simpa using this

theorem getCycle_mapCycle_same {db : Db} {cid : ℕ} {f : DbCycle → DbCycle}
    {c : DbCycle} (hf : ∀ x, (f x).cid = x.cid) (h : db.getCycle cid = some c) :
    (db.mapCycle cid f).getCycle cid = some (f c) := by
  have hcid : c.cid = cid := getCycle_eq_cid h
  unfold getCycle at h ⊢
  unfold mapCycle
  rw [List.find?_map]
  have hpred : ((fun x => x.cid == cid) ∘ fun x => if x.cid == cid then f x else x)
      = fun x => x.cid == cid := by
    funext x
    by_cases hx : x.cid = cid
    · simp [hx, hf]
    · simp [hx]
  rw [hpred, h]
  simp [hcid]

end Db

/-! ## Floor-truncation bounds -/

theorem floorToPrecision_le (x : ℚ) (p : ℕ) : floorToPrecision x p ≤ x := by
  unfold floorToPrecision
  have hp : (0:ℚ) < 10 ^ p := by positivity
  rw [div_le_iff₀ hp]
  exact Int.floor_le (x * 10 ^ p)

theorem sub_floorToPrecision_lt (x : ℚ) (p : ℕ) :
    x - floorToPrecision x p < 1 / 10 ^ p := by
  unfold floorToPrecision
  have hp : (0:ℚ) < 10 ^ p := by positivity
  have h1 : x * 10 ^ p < ⌊x * 10 ^ p⌋ + 1 := Int.lt_floor_add_one _
  rw [sub_lt_iff_lt_add]
  have h2 : (1:ℚ)/10^p + (⌊x * 10 ^ p⌋ : ℚ)/10^p = ((⌊x * 10 ^ p⌋ : ℚ) + 1)/10^p := by
    ring
  rw [h2, lt_div_iff₀ hp]
  linarith

theorem floorToPrecision_sub_nonneg (x : ℚ) (p : ℕ) :
    0 ≤ x - floorToPrecision x p := by
  have := floorToPrecision_le x p
  linarith

/-! ## C9: dust stays below one precision step -/

namespace OrderHandler

theorem handle_buy_fill_dust_bound (env : Env) (config : BotConfig) (db : Db)
    (db_order : DbOrder) (cycle : DbCycle) (binance_order : FillEvent) (d : Db)
    (hc : db.getCycle cycle.cid = some cycle)
    (hfree : 0 < env.free_base)
    (hdev : ¬(0 < cycle.total_base_qty + (binance_order.amount -
        buy_fill_fee_qty env binance_order db_order.price) ∧
      5 < |env.free_base - (cycle.total_base_qty + (binance_order.amount -
          buy_fill_fee_qty env binance_order db_order.price))| /
        (cycle.total_base_qty + (binance_order.amount -
          buy_fill_fee_qty env binance_order db_order.price)) * 100))
    (h : handle_buy_fill env config db db_order cycle binance_order = .ok d) :
    ∃ c2, d.getCycle cycle.cid = some c2 ∧ 0 ≤ c2.accumulated_dust ∧
      c2.accumulated_dust < 1 / 10 ^ env.amount_precision := by
  simp only [handle_buy_fill] at h
  set nb := cycle.total_base_qty + (binance_order.amount -
    buy_fill_fee_qty env binance_order db_order.price) with hnb
  rw [if_neg (not_le.mpr hfree), if_neg hdev] at h
  set A := (if 0 < nb then
      if |env.free_base - nb| / nb < 1/1000 then env.free_base
      else if env.free_base < nb then env.free_base else nb
    else env.free_base) with hA
  have hApos : 0 < A := by
    rw [hA]; split_ifs with h1 h2 h3 <;> linarith
  rw [if_neg (not_le.mpr hApos)] at h
  set F := floorToPrecision (A + cycle.accumulated_dust) env.amount_precision with hF
  have hnd0 : 0 ≤ A + cycle.accumulated_dust - F :=
    floorToPrecision_sub_nonneg (A + cycle.accumulated_dust) env.amount_precision
  have hnd1 : A + cycle.accumulated_dust - F < 1 / 10 ^ env.amount_precision :=
    sub_floorToPrecision_lt (A + cycle.accumulated_dust) env.amount_precision
  clear hA hF hnb
  repeat' split at h
  all_goals first
    | exact Except.noConfusion h
    | (injection h with h
       subst h
       first
        | exact ⟨_, Db.getCycle_mapCycle_same (fun x => rfl)
            (Db.getCycle_mapCycle_same (fun x => rfl) hc), hnd0, hnd1⟩
        | exact ⟨_, Db.getCycle_mapCycle_same (fun x => rfl)
            (Db.getCycle_mapCycle_same (fun x => rfl)
              (Db.getCycle_mapCycle_same (fun x => rfl) hc)), hnd0, hnd1⟩)

end OrderHandler

/-- Concrete fixtures for a BUY_SAFETY fill: rung-0 buy of 0.1 base at 100,
empty cycle. -/
def buyOrder : DbOrder :=
  { oid := 0, cycle_id := 0, binance_order_id := some 1, order_type := .buySafety,
    order_index := 0, price := 100, amount := 1/10, status := .active,
    created_at := 0 }

def buyCycle : DbCycle :=
  { cid := 0, config_id := 1, status := .opened, total_base_qty := 0,
    total_quote_spent := 0, avg_price := 0, initial_first_order_price := some 100,
    current_tp_order_id := none, current_tp_price := none, accumulated_dust := 0,
    profit_usdt := none, closed_at := none, trailing_active := false,
    max_price_tracked := none, trailing_activation_price := none,
    trailing_activation_time := none, emergency_exit := false,
    emergency_exit_reason := none, emergency_exit_time := none }

def buyDb : Db :=
  { orders := [buyOrder], cycles := [buyCycle], next_row_id := 1, next_cycle_id := 1 }

def buyEvent : FillEvent :=
  { id := 1, amount := 1/10, price := 100, cost := some 10,
    fee := .dict 0 .base }

/-- The environment for the fixture fill: free base balance matches the fill,
all exchange calls succeed. -/
def buyEnv : Env :=
  { startTestEnv with free_base := 1/10, now := 5 }

/-- C9: dust stays below one precision step.  For every BUY_SAFETY fill whose
committed invocation reaches the dust-accounting step (positive free base,
deviation guard passed), the cycle's new `accumulated_dust` lies in
`[0, 10^(−amount_precision))`; likewise `DustManager.process_dust`. -/
theorem buy_fill_dust_below_one_step :
    (∀ (env : Env) (config : BotConfig) (db : Db) (db_order : DbOrder)
      (cycle : DbCycle) (binance_order : FillEvent) (d : Db),
      db.getCycle cycle.cid = some cycle →
      0 < env.free_base →
      ¬(0 < cycle.total_base_qty + (binance_order.amount -
          OrderHandler.buy_fill_fee_qty env binance_order db_order.price) ∧
        5 < |env.free_base - (cycle.total_base_qty + (binance_order.amount -
            OrderHandler.buy_fill_fee_qty env binance_order db_order.price))| /
          (cycle.total_base_qty + (binance_order.amount -
            OrderHandler.buy_fill_fee_qty env binance_order db_order.price)) * 100) →
      OrderHandler.handle_buy_fill env config db db_order cycle binance_order = .ok d →
      ∃ c2, d.getCycle cycle.cid = some c2 ∧ 0 ≤ c2.accumulated_dust ∧
        c2.accumulated_dust < 1 / 10 ^ env.amount_precision) ∧
    (∀ (amount acc : ℚ) (p : ℕ),
      0 ≤ (DustManager.process_dust amount acc p).new_dust ∧
      (DustManager.process_dust amount acc p).new_dust < 1 / 10 ^ p) := by
  constructor
  · intro env config db db_order cycle binance_order d hc hfree hdev h
    exact OrderHandler.handle_buy_fill_dust_bound env config db db_order cycle
      binance_order d hc hfree hdev h
  · intro amount acc p
    exact ⟨floorToPrecision_sub_nonneg _ _, sub_floorToPrecision_lt _ _⟩

/-- C9 witness: the fixture buy fill commits with `accumulated_dust = 0`,
inside `[0, 10^(−4))`. -/
theorem buy_fill_dust_below_one_step_witness :
    ∃ d, OrderHandler.handle_buy_fill buyEnv startTestConfig buyDb buyOrder
        buyCycle buyEvent = Except.ok d ∧
      ∃ c2, d.getCycle buyCycle.cid = some c2 ∧ 0 ≤ c2.accumulated_dust ∧
        c2.accumulated_dust < 1 / 10 ^ buyEnv.amount_precision := by
  rcases he : OrderHandler.handle_buy_fill buyEnv startTestConfig buyDb buyOrder
      buyCycle buyEvent with e | d
  · exfalso
    have hok : (OrderHandler.handle_buy_fill buyEnv startTestConfig buyDb buyOrder
        buyCycle buyEvent).isOk = true := by
      simp only [OrderHandler.handle_buy_fill, OrderHandler.buy_fill_fee_qty,
        OrderHandler.latestByCreatedAt, TradingUtils.check_min_notional,
        buyEnv, startTestEnv, startTestConfig, buyDb, buyOrder, buyCycle, buyEvent,
        Db.mapOrderByRow, Db.mapCycle, Db.mapOrdersByBinanceId, Db.addOrder,
        floorToPrecision, Option.getD,
        List.map_cons, List.map_nil, List.filter, List.foldl_cons, List.foldl_nil,
        List.append_nil, List.nil_append, List.cons_append,
        Bool.false_and, Bool.and_false]
      norm_num
      decide
    rw [he] at hok
    simp [Except.isOk, Except.toBool] at hok
  · refine ⟨d, rfl, ?_⟩
    refine buy_fill_dust_below_one_step.1 buyEnv startTestConfig buyDb buyOrder
      buyCycle buyEvent d ?_ ?_ ?_ he
    · decide
    · norm_num [buyEnv, startTestEnv]
    · norm_num [buyEnv, startTestEnv, buyCycle, buyEvent, buyOrder,
        OrderHandler.buy_fill_fee_qty]

/-! ## C6: SELL_TP fill closes the cycle -/

theorem find?_map_pres {α : Type} {l : List α} {P : α → Bool} {o : α}
    {g : α → α} (hagree : ∀ x, P (g x) = P x)
    (hl : l.find? P = some o) : (l.map g).find? P = some (g o) := by
  rw [List.find?_map]
  have hpg : P ∘ g = P := funext hagree
  rw [hpg, hl]
  rfl

theorem find?_append_of_found {α : Type} {P : α → Bool} {o : α} :
    ∀ {l1 : List α} (l2 : List α), l1.find? P = some o →
      (l1 ++ l2).find? P = some o := by
  intro l1
  induction l1 with
  | nil => intro l2 h; simp [List.find?] at h
  | cons a t ih =>
    intro l2 h
    rw [List.cons_append]
    cases hpa : P a
    · rw [List.find?_cons_of_neg _ (by simp [hpa])] at h
      rw [List.find?_cons_of_neg _ (by simp [hpa])]
      exact ih l2 h
    · rw [List.find?_cons_of_pos _ hpa] at h
      rw [List.find?_cons_of_pos _ hpa]
      exact h

theorem foldl_addOrder_cycles {α : Type} (mkf : α → ℕ → DbOrder) :
    ∀ (l : List α) (db : Db),
      (l.foldl (fun d a => d.addOrder (mkf a)) db).cycles = db.cycles := by
  intro l
  induction l with
  | nil => intro db; rfl
  | cons a t ih => intro db; simp only [List.foldl_cons]; rw [ih]; rfl

theorem foldl_addOrder_orders_prefix2 {α : Type} (mkf : α → ℕ → DbOrder) :
    ∀ (l : List α) (db : Db), ∃ tail,
      (l.foldl (fun d a => d.addOrder (mkf a)) db).orders = db.orders ++ tail := by
  intro l
  induction l with
  | nil => intro db; exact ⟨[], by simp⟩
  | cons a t ih =>
    intro db
    obtain ⟨tail, ht⟩ := ih (db.addOrder (mkf a))
    refine ⟨mkf a db.next_row_id :: tail, ?_⟩
    simp only [List.foldl_cons]
    rw [ht]
    simp [Db.addOrder]

theorem start_first_cycle_shape (env : Env) (config : BotConfig) (db db2 : Db)
    (h : BotManager.start_first_cycle env config db = .ok db2) :
    (∃ tail, db2.orders = db.orders ++ tail) ∧
    (∃ ctail, db2.cycles = db.cycles ++ ctail) := by
  simp only [BotManager.start_first_cycle] at h
  repeat' split at h
  all_goals first
    | exact Except.noConfusion h
    | (injection h with h
       subst h
       constructor
       · obtain ⟨tail, ht⟩ := foldl_addOrder_orders_prefix2 _ _ _
         exact ⟨tail, ht⟩
       · exact ⟨_, (foldl_addOrder_cycles _ _ _).trans rfl⟩)

namespace OrderHandler

theorem tp_fill_committed_find (env : Env) (db : Db) (db_order : DbOrder)
    (cycle : DbCycle) (binance_order : FillEvent)
    (hfound : db.findOrderByBinanceId binance_order.id = some db_order) :
    (tp_fill_committed env db db_order cycle binance_order).findOrderByBinanceId
      binance_order.id = some { db_order with status := OrderStatus.filled } := by
  have step1 := find?_map_pres
    (g := fun o => if o.oid == db_order.oid then
      { o with status := OrderStatus.filled } else o)
    (fun x => by by_cases hx : (x.oid == db_order.oid) = true <;> simp [hx]) hfound
  simp only [beq_self_eq_true, if_true] at step1
  have step2 := find?_map_pres
    (g := fun o => if o.cycle_id == cycle.cid && o.status == OrderStatus.active then
      match o.binance_order_id with
      | some bid => if env.cancel_active_ok bid then
          { o with status := OrderStatus.canceled } else o
      | none => o
    else o)
    (fun x => by
      by_cases hcond : (x.cycle_id == cycle.cid && x.status == OrderStatus.active) = true
      · rcases hb : x.binance_order_id with _ | bid
        · simp [hcond, hb]
        · by_cases hca : env.cancel_active_ok bid <;> simp [hcond, hb, hca]
      · simp [hcond]) step1
  simp only [show (OrderStatus.filled == OrderStatus.active) = false from rfl,
    Bool.and_false, Bool.false_eq_true, if_false] at step2
  exact step2

theorem tp_fill_committed_cycle (env : Env) (db : Db) (db_order : DbOrder)
    (cycle : DbCycle) (binance_order : FillEvent)
    (hcyc : db.getCycle cycle.cid = some cycle) :
    (tp_fill_committed env db db_order cycle binance_order).getCycle cycle.cid =
      some { cycle with
        status := CycleStatus.closed, closed_at := some env.now,
        accumulated_dust := 0,
        profit_usdt := some (tp_fill_profit binance_order cycle.total_quote_spent) } := by
  refine Db.getCycle_mapCycle_same ?_ (Db.getCycle_mapCycle_same ?_ hcyc)
  all_goals exact fun x => rfl

theorem handle_tp_fill_result (env : Env) (config : BotConfig) (db : Db)
    (db_order : DbOrder) (cycle : DbCycle) (binance_order : FillEvent) (d2 : Db)
    (h : handle_tp_fill env config db db_order cycle binance_order = .ok d2) :
    ∃ tail ctail,
      d2.orders = (tp_fill_committed env db db_order cycle binance_order).orders ++ tail ∧
      d2.cycles = (tp_fill_committed env db db_order cycle binance_order).cycles ++ ctail := by
  simp only [handle_tp_fill] at h
  split at h
  · injection h with h
    subst h
    next heq =>
      obtain ⟨⟨tail, ht⟩, ⟨ctail, hc⟩⟩ := start_first_cycle_shape _ _ _ _ heq
      exact ⟨tail, ctail, ht, hc⟩
  · injection h with h
    subst h
    exact ⟨[], [], by simp, by simp⟩

theorem handle_tp_fill_ok (env : Env) (config : BotConfig) (db : Db)
    (db_order : DbOrder) (cycle : DbCycle) (binance_order : FillEvent) :
    ∃ d, handle_tp_fill env config db db_order cycle binance_order = .ok d := by
  simp only [handle_tp_fill]
  split
  all_goals exact ⟨_, rfl⟩

end OrderHandler

namespace OrderHandler

theorem handle_filled_order_dispatch (env : Env) (configs : ℕ → BotConfig)
    (db : Db) (binance_order : FillEvent) (db_order : DbOrder)
    (hfound : db.findOrderByBinanceId binance_order.id = some db_order)
    (hstatus : db_order.status ≠ OrderStatus.filled) :
    handle_filled_order env configs db binance_order =
      match db.getCycle db_order.cycle_id with
      | none => db
      | some cycle =>
        match (match db_order.order_type with
               | OrderType.buySafety =>
                  handle_buy_fill env (configs cycle.config_id) db db_order cycle binance_order
               | OrderType.sellTp =>
                  handle_tp_fill env (configs cycle.config_id) db db_order cycle binance_order) with
        | .ok d2 => d2
        | .error _ => db := by
  have hb : (db_order.status == OrderStatus.filled) = false := by
    simpa using hstatus
  simp only [handle_filled_order, hfound, hb, Bool.false_eq_true, if_false]

end OrderHandler

/-- C6: a SELL_TP fill on an order not already FILLED marks the order FILLED,
closes the cycle with `closed_at` populated and `accumulated_dust` reset to 0,
and records `profit = (reported cost − quote fee) − total_quote_spent`, with
`cost = price · amount` when the exchange reports no cost and a 0.1%-of-cost
fee fallback when no quote-denominated fee is reported; these updates survive
the cancel loop and the restart of the next cycle. -/
theorem tp_fill_closes_cycle (env : Env) (configs : ℕ → BotConfig) (db : Db)
    (binance_order : FillEvent) (db_order : DbOrder) (cycle : DbCycle)
    (hfound : db.findOrderByBinanceId binance_order.id = some db_order)
    (hsell : db_order.order_type = OrderType.sellTp)
    (hstatus : db_order.status ≠ OrderStatus.filled)
    (hcyc : db.getCycle db_order.cycle_id = some cycle) :
    (OrderHandler.handle_filled_order env configs db binance_order).findOrderByBinanceId
      binance_order.id = some { db_order with status := OrderStatus.filled } ∧
    ∃ c2, (OrderHandler.handle_filled_order env configs db
        binance_order).getCycle db_order.cycle_id = some c2 ∧
      c2.status = CycleStatus.closed ∧ c2.closed_at = some env.now ∧
      c2.accumulated_dust = 0 ∧
      c2.profit_usdt = some (OrderHandler.tp_fill_profit binance_order
        cycle.total_quote_spent) := by
  have hcid : cycle.cid = db_order.cycle_id := Db.getCycle_eq_cid hcyc
  have hcyc2 : db.getCycle cycle.cid = some cycle := by rw [hcid]; exact hcyc
  have hdisp := OrderHandler.handle_filled_order_dispatch env configs db
    binance_order db_order hfound hstatus
  obtain ⟨d2, hok⟩ := OrderHandler.handle_tp_fill_ok env (configs cycle.config_id)
    db db_order cycle binance_order
  simp only [hcyc, hsell, hok] at hdisp
  obtain ⟨tail, ctail, hOrd, hCyc⟩ := OrderHandler.handle_tp_fill_result env
    (configs cycle.config_id) db db_order cycle binance_order d2 hok
  rw [hdisp]
  constructor
  · unfold Db.findOrderByBinanceId
    rw [hOrd]
    exact find?_append_of_found _
      (OrderHandler.tp_fill_committed_find env db db_order cycle binance_order hfound)
  · have hget : d2.getCycle db_order.cycle_id = some { cycle with
        status := CycleStatus.closed, closed_at := some env.now,
        accumulated_dust := 0,
        profit_usdt := some (OrderHandler.tp_fill_profit binance_order
          cycle.total_quote_spent) } := by
      unfold Db.getCycle
      rw [← hcid, hCyc]
      exact find?_append_of_found _
        (OrderHandler.tp_fill_committed_cycle env db db_order cycle binance_order hcyc2)
    exact ⟨_, hget, rfl, rfl, rfl, rfl⟩

/-- Fixtures for the TP-fill witness: a SELL_TP order at 3030 selling 1 base
on a cycle that spent 3000 quote, with a 3-USDT quote fee. -/
def tpOrder : DbOrder :=
  { oid := 0, cycle_id := 0, binance_order_id := some 2, order_type := .sellTp,
    order_index := -1, price := 3030, amount := 1, status := .active,
    created_at := 0 }

def tpCycle : DbCycle :=
  { cid := 0, config_id := 1, status := .opened, total_base_qty := 1,
    total_quote_spent := 3000, avg_price := 3000,
    initial_first_order_price := some 3000, current_tp_order_id := some 2,
    current_tp_price := some 3030, accumulated_dust := 0, profit_usdt := none,
    closed_at := none, trailing_active := false, max_price_tracked := none,
    trailing_activation_price := none, trailing_activation_time := none,
    emergency_exit := false, emergency_exit_reason := none,
    emergency_exit_time := none }

def tpDb : Db :=
  { orders := [tpOrder], cycles := [tpCycle], next_row_id := 1, next_cycle_id := 1 }

def tpEvent : FillEvent :=
  { id := 2, amount := 1, price := 3030, cost := some 3030,
    fee := .dict 3 .usdt }

/-- C6 witness: on the fixture TP fill the cycle closes with profit
`(3030 − 3) − 3000 = 27`. -/
theorem tp_fill_closes_cycle_witness :
    ∃ c2, (OrderHandler.handle_filled_order buyEnv (fun _ => startTestConfig)
        tpDb tpEvent).getCycle 0 = some c2 ∧
      c2.status = CycleStatus.closed ∧ c2.profit_usdt = some 27 := by
  obtain ⟨-, c2, hg, hclosed, -, -, hp⟩ :=
    tp_fill_closes_cycle buyEnv (fun _ => startTestConfig) tpDb tpEvent tpOrder
      tpCycle rfl rfl (by decide) rfl
  refine ⟨c2, hg, hclosed, ?_⟩
  rw [hp]
  norm_num [OrderHandler.tp_fill_profit, tpEvent, tpCycle]

/-! ## C1/C3 support: find-preservation through the buy branch -/

theorem find?_map_of_fix {α : Type} {P : α → Bool} {o : α} {g : α → α}
    (hgo : g o = o) (himp : ∀ x, P (g x) = true → P x = true) :
    ∀ {l : List α}, l.find? P = some o → (l.map g).find? P = some o := by
  intro l
  induction l with
  | nil => intro hl; simp [List.find?] at hl
  | cons a t ih =>
    intro hl
    rw [List.map_cons]
    cases hpa : P a
    · rw [List.find?_cons_of_neg _ (by simp [hpa])] at hl
      have hpga : P (g a) = false := by
        cases hga : P (g a)
        · rfl
        · exact absurd (himp a hga) (by simp [hpa])
      rw [List.find?_cons_of_neg _ (by simp [hpga])]
      exact ih hl
    · rw [List.find?_cons_of_pos _ hpa] at hl
      injection hl with hl
      subst hl
      rw [hgo, List.find?_cons_of_pos _ hpa]

theorem latestByCreatedAt_mem :
    ∀ (l : List DbOrder) (acc : Option DbOrder) (o : DbOrder),
      l.foldl (fun acc o =>
        match acc with
        | none => some o
        | some a => if a.created_at < o.created_at then some o else some a) acc = some o →
      o ∈ l ∨ acc = some o := by
  intro l
  induction l with
  | nil => intro acc o h; exact Or.inr h
  | cons a t ih =>
    intro acc o h
    rw [List.foldl_cons] at h
    rcases ih _ o h with hmem | hacc
    · exact Or.inl (List.mem_cons_of_mem a hmem)
    · rcases acc with _ | b
      · simp only [] at hacc
        injection hacc with hacc
        exact Or.inl (hacc ▸ List.mem_cons_self a t)
      · simp only [] at hacc
        split at hacc
        · injection hacc with hacc
          exact Or.inl (hacc ▸ List.mem_cons_self a t)
        · exact Or.inr hacc

theorem mem_of_find?_eq_some {α : Type} {P : α → Bool} {o : α} {l : List α}
    (h : l.find? P = some o) : o ∈ l :=
  List.mem_of_find?_eq_some h

namespace OrderHandler

/-- Primary keys separate the filled safety order from its successor rung:
the rows live in a snapshot whose row ids extend a wellformed database by one
fresh id, and the successor sits one grid index above the filled row, so the
two rows — and hence their ids — differ. -/
theorem next_rung_oid_ne {db dbx : Db} {row db_order next_order : DbOrder}
    (hwf : Db.WF db)
    (hoidx : dbx.orders.map DbOrder.oid = db.orders.map DbOrder.oid)
    (hrow : row.oid = db.next_row_id)
    (hmemo : ({ db_order with status := OrderStatus.filled } : DbOrder) ∈ dbx.orders)
    (hmem6 : next_order ∈ dbx.orders ++ [row])
    (hidx : next_order.order_index = db_order.order_index + 1) :
    (db_order.oid == next_order.oid) = false := by
  have hnodup : ((dbx.orders ++ [row]).map DbOrder.oid).Nodup := by
    rw [List.map_append, hoidx]
    simp only [List.map_singleton, hrow]
    rw [List.nodup_append]
    refine ⟨hwf.1, List.nodup_singleton _, ?_⟩
    intro a ha hb
    rw [List.mem_singleton] at hb
    subst hb
    rcases List.mem_map.mp ha with ⟨o, ho, hoa⟩
    have := hwf.2 o ho
    omega
  have hmemo' : ({ db_order with status := OrderStatus.filled } : DbOrder) ∈
      dbx.orders ++ [row] := List.mem_append_left _ hmemo
  by_contra hbeq
  rw [Bool.not_eq_false, beq_iff_eq] at hbeq
  have heq := List.inj_on_of_nodup_map hnodup hmemo' hmem6 (by simpa using hbeq)
  have hix : next_order.order_index = db_order.order_index := by rw [← heq]
  omega

/-- Through the tail of `_handle_buy_fill` (from the balance check on), the
first row matching the fill's exchange id is untouched: the TP row is
appended after it and the next-rung update rewrites a different row (fresh
exchange id, distinct primary key). -/
theorem buy_fill_rest_find (env : Env) (db dbx : Db) (config : BotConfig)
    (db_order : DbOrder) (cycle : DbCycle) (binance_order : FillEvent) (d : Db)
    (hwf : Db.WF db)
    (hfind : dbx.orders.find? (fun o => o.binance_order_id == some binance_order.id)
      = some { db_order with status := OrderStatus.filled })
    (hoidx : dbx.orders.map DbOrder.oid = db.orders.map DbOrder.oid)
    (hnext : dbx.next_row_id = db.next_row_id)
    (hfresh : env.next_create_id ≠ some binance_order.id)
    (h : buy_fill_rest env config db_order cycle binance_order dbx = .ok d) :
    d.findOrderByBinanceId binance_order.id
      = some { db_order with status := OrderStatus.filled } := by
  classical
  simp only [buy_fill_rest] at h
  set nb := cycle.total_base_qty + (binance_order.amount -
    buy_fill_fee_qty env binance_order db_order.price) with hnb
  set nq := cycle.total_quote_spent +
    binance_order.cost.getD (db_order.price * binance_order.amount) with hnq
  set av := (if 0 < nb then nq / nb else 0 : ℚ) with hav
  set mp := (if 0 < nq then
      (1 / 10 ^ env.amount_precision * env.round_price av + nq * (2 / 1000)) / nq * 100
    else 1/2 : ℚ) with hmp
  set A := (if 0 < nb then
      if |env.free_base - nb| / nb < 1/1000 then env.free_base
      else if env.free_base < nb then env.free_base else nb
    else env.free_base : ℚ) with hA
  set F := floorToPrecision (A + cycle.accumulated_dust) env.amount_precision with hF
  clear hnb hnq hav hmp hA hF
  split at h
  · injection h with h; subst h; exact hfind
  split at h
  · injection h with h; subst h; exact hfind
  split at h
  · injection h with h; subst h; exact hfind
  split at h
  · injection h with h; subst h; exact hfind
  split at h
  · injection h with h; subst h; exact hfind
  split at h
  · injection h with h; subst h; exact hfind
  rename_i tp_binance_id htpc
  split at h
  · injection h with h; subst h
    exact find?_append_of_found _ hfind
  rename_i next_order hlat
  split at h
  · injection h with h; subst h
    exact find?_append_of_found _ hfind
  split at h
  · exact Except.noConfusion h
  rename_i next_binance_id hcid
  injection h with h; subst h
  simp only [latestByCreatedAt, Db.addOrder, Db.mapCycle] at hlat
  have hmemf := (latestByCreatedAt_mem _ _ _ hlat).resolve_right (by simp)
  rw [List.mem_filter] at hmemf
  obtain ⟨hmem6, hpf⟩ := hmemf
  have hidx : next_order.order_index = db_order.order_index + 1 := by
    simp only [Bool.and_eq_true, beq_iff_eq] at hpf
    exact hpf.1.2
  have hne : (db_order.oid == next_order.oid) = false :=
    next_rung_oid_ne hwf hoidx (by rw [← hnext]) (mem_of_find?_eq_some hfind) hmem6 hidx
  simp only [Db.findOrderByBinanceId, Db.mapOrderByRow, Db.addOrder, Db.mapCycle]
  refine find?_map_of_fix ?_ ?_ (find?_append_of_found _ hfind)
  · simp [hne]
  · intro x hx
    cases hc : (x.oid == next_order.oid)
    · simpa [hc] using hx
    · simp [hc] at hx
      exact absurd (hcid.trans (by rw [hx])) hfresh

/-- Through a successful `_handle_buy_fill`, the matched row ends up FILLED
and is still the first row matching the fill's exchange id: the old-TP
cancel targets a different exchange id, and the appended TP row and rewritten
next rung are different rows. -/
theorem handle_buy_fill_find (env : Env) (config : BotConfig) (db : Db)
    (db_order : DbOrder) (cycle : DbCycle) (binance_order : FillEvent) (d : Db)
    (hwf : Db.WF db)
    (hfound : db.findOrderByBinanceId binance_order.id = some db_order)
    (htp : cycle.current_tp_order_id ≠ some binance_order.id)
    (hfresh : env.next_create_id ≠ some binance_order.id)
    (h : handle_buy_fill env config db db_order cycle binance_order = .ok d) :
    d.findOrderByBinanceId binance_order.id
      = some { db_order with status := OrderStatus.filled } := by
  classical
  have hbid : db_order.binance_order_id = some binance_order.id := by
    have h0 : db.orders.find? (fun o => o.binance_order_id == some binance_order.id)
        = some db_order := hfound
    simpa using List.find?_some h0
  have step1 : (db.orders.map fun x => if x.oid == db_order.oid then
        { x with status := OrderStatus.filled } else x).find?
      (fun o => o.binance_order_id == some binance_order.id) =
      some { db_order with status := OrderStatus.filled } := by
    have hstep := @find?_map_pres DbOrder db.orders
      (fun o => o.binance_order_id == some binance_order.id) db_order
      (fun x => if x.oid == db_order.oid then
        { x with status := OrderStatus.filled } else x)
      (fun x => by by_cases hx : (x.oid == db_order.oid) = true <;> simp [hx]) hfound
    simpa using hstep
  have hLoid : ((db.orders.map fun x => if x.oid == db_order.oid then
        { x with status := OrderStatus.filled } else x).map DbOrder.oid) =
      db.orders.map DbOrder.oid := by
    rw [List.map_map]
    refine List.map_congr_left fun x _ => ?_
    simp [Function.comp, apply_ite DbOrder.oid]
  change buy_fill_rest env config db_order cycle binance_order _ = Except.ok d at h
  split at h
  · -- an old TP exists
    rename_i old_tp_id htpid
    have htid : old_tp_id ≠ binance_order.id := fun hh => htp (by rw [htpid, hh])
    split at h
    · -- the cancel RPC succeeded: one more orders map, same exchange ids
      refine buy_fill_rest_find env db _ config db_order cycle binance_order d
        hwf ?_ ?_ ?_ hfresh h
      · refine find?_map_of_fix ?_ ?_ step1
        · have hne : ((some binance_order.id == some old_tp_id) : Bool) = false := by
            simp only [beq_eq_false_iff_ne, ne_eq, Option.some.injEq]
            exact fun hh => htid hh.symm
          simp [hbid, hne]
        · intro x hx
          cases hc : (x.binance_order_id == some old_tp_id) <;> simpa [hc] using hx
      · simp only [Db.mapOrdersByBinanceId, Db.mapCycle, Db.mapOrderByRow,
          List.map_map]
        refine List.map_congr_left fun x _ => ?_
        simp [Function.comp, apply_ite DbOrder.oid,
          apply_ite DbOrder.binance_order_id]
      · rfl
    · refine buy_fill_rest_find env db _ config db_order cycle binance_order d
        hwf ?_ ?_ ?_ hfresh h
      · exact step1
      · exact hLoid
      · rfl
  · -- no old TP
    refine buy_fill_rest_find env db _ config db_order cycle binance_order d
      hwf ?_ ?_ ?_ hfresh h
    · exact step1
    · exact hLoid
    · rfl

/-- The fill-status update keeps the matched row the first match for the
fill's exchange id, now FILLED. -/
theorem buy_fill_step1 (db : Db) (db_order : DbOrder) (bid : ℕ)
    (hfound : db.findOrderByBinanceId bid = some db_order) :
    (db.orders.map fun x => if x.oid == db_order.oid then
        { x with status := OrderStatus.filled } else x).find?
      (fun o => o.binance_order_id == some bid) =
      some { db_order with status := OrderStatus.filled } := by
  have hstep := @find?_map_pres DbOrder db.orders
    (fun o => o.binance_order_id == some bid) db_order
    (fun x => if x.oid == db_order.oid then
      { x with status := OrderStatus.filled } else x)
    (fun x => by by_cases hx : (x.oid == db_order.oid) = true <;> simp [hx]) hfound
  simpa using hstep

/-- The old-TP cancel layer targets a different exchange id, so the FILLED
row stays the first match. -/
theorem buy_fill_stepC (db : Db) (db_order : DbOrder) (bid tid : ℕ)
    (hfound : db.findOrderByBinanceId bid = some db_order)
    (htid : tid ≠ bid) :
    ((db.orders.map fun x => if x.oid == db_order.oid then
        { x with status := OrderStatus.filled } else x).map fun o =>
        if o.binance_order_id == some tid then
          { o with status := OrderStatus.canceled } else o).find?
      (fun o => o.binance_order_id == some bid) =
      some { db_order with status := OrderStatus.filled } := by
  have hbid : db_order.binance_order_id = some bid := by
    have h0 : db.orders.find? (fun o => o.binance_order_id == some bid)
        = some db_order := hfound
    simpa using List.find?_some h0
  refine find?_map_of_fix ?_ ?_ (buy_fill_step1 db db_order bid hfound)
  · have hne : ((some bid == some tid) : Bool) = false := by
      simp only [beq_eq_false_iff_ne, ne_eq, Option.some.injEq]
      exact fun hh => htid hh.symm
    simp [hbid, hne]
  · intro x hx
    cases hc : (x.binance_order_id == some tid) <;> simpa [hc] using hx

/-- When the exchange call creating the TP order raises (`tp_create_id =
none`), the tail of `_handle_buy_fill` cannot throw: the `OrderCreationError`
is caught, the partially-updated state is kept, and no order row is added or
removed. -/
theorem buy_fill_rest_net {env : Env} {config : BotConfig} {db_order : DbOrder}
    {cycle : DbCycle} {binance_order : FillEvent} {dbx : Db} {r : Except Unit Db}
    (hnet : env.tp_create_id = none)
    (h : buy_fill_rest env config db_order cycle binance_order dbx = r) :
    ∃ d, r = Except.ok d ∧ d.orders = dbx.orders := by
  classical
  simp only [buy_fill_rest, hnet] at h
  set nb := cycle.total_base_qty + (binance_order.amount -
    buy_fill_fee_qty env binance_order db_order.price) with hnb
  set nq := cycle.total_quote_spent +
    binance_order.cost.getD (db_order.price * binance_order.amount) with hnq
  set av := (if 0 < nb then nq / nb else 0 : ℚ) with hav
  set mp := (if 0 < nq then
      (1 / 10 ^ env.amount_precision * env.round_price av + nq * (2 / 1000)) / nq * 100
    else 1/2 : ℚ) with hmp
  set A := (if 0 < nb then
      if |env.free_base - nb| / nb < 1/1000 then env.free_base
      else if env.free_base < nb then env.free_base else nb
    else env.free_base : ℚ) with hA
  set F := floorToPrecision (A + cycle.accumulated_dust) env.amount_precision with hF
  clear hnb hnq hav hmp hA hF
  repeat' split at h
  all_goals exact ⟨_, h.symm, rfl⟩

/-- Under a TP-placement network error, `_handle_buy_fill` succeeds without
throwing, commits the FILLED status, and leaves the order count unchanged
(no TP row, no rung rewrite). -/
theorem handle_buy_fill_net (env : Env) (config : BotConfig) (db : Db)
    (db_order : DbOrder) (cycle : DbCycle) (ev : FillEvent)
    (hfound : db.findOrderByBinanceId ev.id = some db_order)
    (htp : cycle.current_tp_order_id ≠ some ev.id)
    (hnet : env.tp_create_id = none) :
    ∃ d, handle_buy_fill env config db db_order cycle ev = .ok d ∧
      d.findOrderByBinanceId ev.id = some { db_order with status := OrderStatus.filled } ∧
      d.orders.length = db.orders.length := by
  classical
  rcases hH : handle_buy_fill env config db db_order cycle ev with e | d
  · change buy_fill_rest env config db_order cycle ev _ = Except.error e at hH
    obtain ⟨d2, hr, _⟩ := buy_fill_rest_net hnet hH
    exact Except.noConfusion hr
  · change buy_fill_rest env config db_order cycle ev _ = Except.ok d at hH
    obtain ⟨d2, hr, ho⟩ := buy_fill_rest_net hnet hH
    injection hr with hr
    subst hr
    refine ⟨d, rfl, ?_, ?_⟩
    · show d.orders.find? (fun o => o.binance_order_id == some ev.id) =
        some { db_order with status := OrderStatus.filled }
      rw [ho]
      rcases htpid : cycle.current_tp_order_id with _ | tid
      · simp only [htpid]
        exact buy_fill_step1 db db_order ev.id hfound
      · have htid : tid ≠ ev.id := fun hh => htp (by rw [htpid, hh])
        simp only [htpid]
        cases hcan : env.cancel_old_tp_ok
        · simp only [hcan, Bool.false_eq_true, if_false]
          exact buy_fill_step1 db db_order ev.id hfound
        · simp only [hcan, if_true]
          exact buy_fill_stepC db db_order ev.id tid hfound htid
    · show d.orders.length = db.orders.length
      rw [ho]
      rcases htpid : cycle.current_tp_order_id with _ | tid
      · simp [htpid, Db.mapCycle, Db.mapOrderByRow]
      · cases hcan : env.cancel_old_tp_ok <;>
          simp [htpid, hcan, Db.mapOrdersByBinanceId, Db.mapCycle, Db.mapOrderByRow]

/-- The FILLED guard: when the row matched by the fill's exchange id is
already FILLED, `handle_filled_order` returns the state unchanged. -/
theorem handle_filled_order_of_filled (env : Env) (configs : ℕ → BotConfig)
    (db : Db) (ev : FillEvent) (db_order : DbOrder)
    (hfound : db.findOrderByBinanceId ev.id = some db_order)
    (hstatus : db_order.status = OrderStatus.filled) :
    handle_filled_order env configs db ev = db := by
  simp only [handle_filled_order, hfound, hstatus, beq_self_eq_true, if_true]

end OrderHandler

/-- C1: fill-handler idempotence.  For every fill event whose exchange id
matches a stored order row — provided the handler's own order creations use
fresh exchange ids and, for a safety-order row, the fill's id is not also
registered as the cycle's pending TP — applying `handle_filled_order` twice
to a wellformed database equals applying it once: a successful run marks the
row FILLED, so the second run hits the FILLED guard and is a no-op, and a
rolled-back run leaves the state unchanged, so the second run retraces it. -/
theorem handle_filled_order_idempotent (env : Env) (configs : ℕ → BotConfig)
    (db : Db) (ev : FillEvent) (db_order : DbOrder)
    (hwf : Db.WF db)
    (hfound : db.findOrderByBinanceId ev.id = some db_order)
    (hbuy : db_order.order_type = OrderType.buySafety →
      (∀ c, db.getCycle db_order.cycle_id = some c →
        c.current_tp_order_id ≠ some ev.id) ∧ env.next_create_id ≠ some ev.id) :
    OrderHandler.handle_filled_order env configs
        (OrderHandler.handle_filled_order env configs db ev) ev =
      OrderHandler.handle_filled_order env configs db ev := by
  classical
  by_cases hstatus : db_order.status = OrderStatus.filled
  · rw [OrderHandler.handle_filled_order_of_filled env configs db ev db_order
      hfound hstatus]
    exact OrderHandler.handle_filled_order_of_filled env configs db ev db_order
      hfound hstatus
  · rw [OrderHandler.handle_filled_order_dispatch env configs db ev db_order
      hfound hstatus]
    cases hcyc : db.getCycle db_order.cycle_id with
    | none =>
      simp only [hcyc]
      rw [OrderHandler.handle_filled_order_dispatch env configs db ev db_order
        hfound hstatus]
      simp only [hcyc]
    | some cycle =>
      simp only [hcyc]
      cases hot : db_order.order_type with
      | buySafety =>
        simp only [hot]
        obtain ⟨htp2, hfresh⟩ := hbuy hot
        cases hres : OrderHandler.handle_buy_fill env (configs cycle.config_id)
            db db_order cycle ev with
        | error e =>
          simp only [hres]
          rw [OrderHandler.handle_filled_order_dispatch env configs db ev db_order
            hfound hstatus]
          simp only [hcyc, hot, hres]
        | ok d =>
          simp only [hres]
          have hfind2 : d.findOrderByBinanceId ev.id =
              some { db_order with status := OrderStatus.filled } :=
            OrderHandler.handle_buy_fill_find env (configs cycle.config_id) db
              db_order cycle ev d hwf hfound (htp2 cycle hcyc) hfresh hres
          exact OrderHandler.handle_filled_order_of_filled env configs d ev _
            hfind2 rfl
      | sellTp =>
        simp only [hot]
        obtain ⟨d, hres⟩ := OrderHandler.handle_tp_fill_ok env
          (configs cycle.config_id) db db_order cycle ev
        simp only [hres]
        obtain ⟨tail, ctail, ht, hc⟩ := OrderHandler.handle_tp_fill_result env
          (configs cycle.config_id) db db_order cycle ev d hres
        have hcommit := OrderHandler.tp_fill_committed_find env db db_order cycle
          ev hfound
        have hfind2 : d.findOrderByBinanceId ev.id =
            some { db_order with status := OrderStatus.filled } := by
          show d.orders.find? (fun o => o.binance_order_id == some ev.id) =
            some { db_order with status := OrderStatus.filled }
          rw [ht]
          exact find?_append_of_found _ hcommit
        exact OrderHandler.handle_filled_order_of_filled env configs d ev _
          hfind2 rfl

/-- C1 witness: the concrete safety-order fill fixture satisfies the
hypotheses, and the double application coincides with the single one. -/
theorem handle_filled_order_idempotent_witness :
    Db.WF buyDb ∧
    buyDb.findOrderByBinanceId buyEvent.id = some buyOrder ∧
    OrderHandler.handle_filled_order buyEnv (fun _ => startTestConfig)
        (OrderHandler.handle_filled_order buyEnv (fun _ => startTestConfig)
          buyDb buyEvent) buyEvent =
      OrderHandler.handle_filled_order buyEnv (fun _ => startTestConfig)
        buyDb buyEvent := by
  refine ⟨by decide, rfl, ?_⟩
  refine handle_filled_order_idempotent buyEnv (fun _ => startTestConfig)
    buyDb buyEvent buyOrder (by decide) rfl ?_
  intro _
  refine ⟨?_, by decide⟩
  intro c hc
  have h0 : buyDb.getCycle buyOrder.cycle_id = some buyCycle := rfl
  have hc2 : buyCycle = c := Option.some.inj (h0.symm.trans hc)
  rw [← hc2]
  decide

/-! ## C3: network error during TP placement, and redelivery -/

/-- The fixture environment in which the exchange call creating the TP order
raises a network error. -/
def netEnv : Env := { buyEnv with tp_create_id := none }

def netOrderFilled : DbOrder := { buyOrder with status := OrderStatus.filled }

def netCycleAfter : DbCycle :=
  { buyCycle with
    total_base_qty := 1/10, total_quote_spent := 10, avg_price := 100 }

/-- The state committed by the fixture fill under the TP network error:
order FILLED, cycle totals updated, no TP row. -/
def netDb1 : Db :=
  { orders := [netOrderFilled], cycles := [netCycleAfter],
    next_row_id := 1, next_cycle_id := 1 }

/-- C3 (amended): a network error while placing the TP order is caught: the
handler commits the fill-status and cycle updates and leaves the order count
unchanged (the TP and next-rung placements are skipped), and a redelivery of
the same fill — under any environment, including a healthy exchange — hits
the FILLED guard and leaves the state untouched instead of resuming the
skipped placements. -/
theorem network_error_fill_no_resume (env env2 : Env) (configs configs2 : ℕ → BotConfig)
    (db : Db) (ev : FillEvent) (db_order : DbOrder) (cycle : DbCycle)
    (hfound : db.findOrderByBinanceId ev.id = some db_order)
    (hstatus : db_order.status ≠ OrderStatus.filled)
    (hcyc : db.getCycle db_order.cycle_id = some cycle)
    (hot : db_order.order_type = OrderType.buySafety)
    (htp : cycle.current_tp_order_id ≠ some ev.id)
    (hnet : env.tp_create_id = none) :
    ∃ d, OrderHandler.handle_filled_order env configs db ev = d ∧
      d.findOrderByBinanceId ev.id =
        some { db_order with status := OrderStatus.filled } ∧
      d.orders.length = db.orders.length ∧
      OrderHandler.handle_filled_order env2 configs2 d ev = d := by
  obtain ⟨d, hok, hfind, hlen⟩ := OrderHandler.handle_buy_fill_net env
    (configs cycle.config_id) db db_order cycle ev hfound htp hnet
  refine ⟨d, ?_, hfind, hlen, ?_⟩
  · rw [OrderHandler.handle_filled_order_dispatch env configs db ev db_order
      hfound hstatus]
    simp only [hcyc, hot, hok]
  · exact OrderHandler.handle_filled_order_of_filled env2 configs2 d ev _
      hfind rfl

/-- C3 witness: the fixture fill under the network-error environment. -/
theorem network_error_fill_no_resume_witness :
    buyDb.findOrderByBinanceId buyEvent.id = some buyOrder ∧
    netEnv.tp_create_id = none ∧
    ∃ d, OrderHandler.handle_filled_order netEnv (fun _ => startTestConfig)
        buyDb buyEvent = d ∧
      d.findOrderByBinanceId buyEvent.id =
        some { buyOrder with status := OrderStatus.filled } ∧
      d.orders.length = buyDb.orders.length ∧
      OrderHandler.handle_filled_order buyEnv (fun _ => startTestConfig) d
        buyEvent = d := by
  refine ⟨rfl, rfl, ?_⟩
  exact network_error_fill_no_resume netEnv buyEnv (fun _ => startTestConfig)
    (fun _ => startTestConfig) buyDb buyEvent buyOrder buyCycle rfl (by decide)
    rfl rfl (by decide) rfl

/-- C3 (counterexample to the resume clause): under the fixture fill the
network error leaves a committed state — order FILLED, `total_quote_spent`
updated to 10, no SELL_TP row — and redelivering the same fill against a
fully healthy exchange returns that state unchanged: the skipped TP
placement is never completed. -/
theorem network_error_redelivery_noop :
    OrderHandler.handle_filled_order netEnv (fun _ => startTestConfig) buyDb
        buyEvent = netDb1 ∧
    netDb1.findOrderByBinanceId buyEvent.id = some netOrderFilled ∧
    netOrderFilled.status = OrderStatus.filled ∧
    netCycleAfter.total_quote_spent = 10 ∧
    (netDb1.orders.filter fun o => o.order_type == OrderType.sellTp) = [] ∧
    OrderHandler.handle_filled_order buyEnv (fun _ => startTestConfig) netDb1
        buyEvent = netDb1 := by
  have h1 : OrderHandler.handle_buy_fill netEnv startTestConfig buyDb buyOrder
      buyCycle buyEvent = Except.ok netDb1 := by
    simp only [OrderHandler.handle_buy_fill, OrderHandler.buy_fill_fee_qty,
      OrderHandler.latestByCreatedAt, TradingUtils.check_min_notional,
      netEnv, buyEnv, startTestEnv, startTestConfig, buyDb, buyOrder, buyCycle,
      buyEvent, netDb1, netOrderFilled, netCycleAfter,
      Db.mapOrderByRow, Db.mapCycle, Db.mapOrdersByBinanceId, Db.addOrder,
      floorToPrecision, Option.getD,
      List.map_cons, List.map_nil, List.filter, List.foldl_cons, List.foldl_nil,
      List.append_nil, List.nil_append, List.cons_append,
      Bool.false_and, Bool.and_false]
    norm_num
  refine ⟨?_, rfl, rfl, rfl, rfl, ?_⟩
  · rw [OrderHandler.handle_filled_order_dispatch netEnv
      (fun _ => startTestConfig) buyDb buyEvent buyOrder rfl (by decide)]
    simp only [show buyDb.getCycle buyOrder.cycle_id = some buyCycle from rfl,
      show buyOrder.order_type = OrderType.buySafety from rfl, h1]
  · exact OrderHandler.handle_filled_order_of_filled buyEnv
      (fun _ => startTestConfig) netDb1 buyEvent netOrderFilled rfl rfl

end TradingBot
